import Mathlib

/-!
# Era: network profiles and the added-node RPC surface

A shallow embedding of `src/chainparams.cpp`, `src/rpcnet.cpp`,
`src/qt/clientmodel.cpp`, `src/qt/guiutil.cpp`, `src/fork.h` and
`src/checkpoints.h`.  Code that those files call but that lives outside the
embedded sources (hashing, compact-target encoding, address resolution, dialling,
peer statistics, URL reading, wall clock, random numbers) is taken as a
parameter.
-/

namespace Era

/-! ## chainparams.cpp : data -/

/-- The struct `SeedSpec6`: `uint8_t addr[16]; uint16_t port;`. -/
structure SeedSpec6 where
  addr : List Nat
  port : Nat
deriving DecidableEq, Repr

/-- A network endpoint `CService(ip, port)`. -/
structure CService where
  ip : List Nat
  port : Nat
deriving DecidableEq, Repr

/-- The members of `CAddress` that the embedded code reads or writes: the
endpoint it is built from and the last-seen time `nTime`. -/
structure CAddress where
  svc : CService
  nTime : Int
deriving DecidableEq, Repr

/-- The wall clock and the random source as seen by one run of the seed loop:
`GetTime i` is what `GetTime()` returns in iteration `i`, and `GetRand i nMax`
what `GetRand(nMax)` returns there. -/
structure SeedClock where
  GetTime : Nat → Int
  GetRand : Nat → Int → Int

/-- The constant `nOneWeek = 7*24*60*60` of `convertSeed6`. -/
def nOneWeek : Int := 7 * 24 * 60 * 60

/-- The body of the `for` loop of `convertSeed6`, from iteration `i` on, over the
entries of `data` that are still to be converted. -/
def convertSeed6Loop (clk : SeedClock) : Nat → List SeedSpec6 → List CAddress → List CAddress
  | _, [], vSeedsOut => vSeedsOut
  | i, d :: rest, vSeedsOut =>
    let addr : CAddress := { svc := { ip := d.addr, port := d.port }, nTime := 0 }
    let addr := { addr with nTime := clk.GetTime i - clk.GetRand i nOneWeek - nOneWeek }
    convertSeed6Loop clk (i + 1) rest (vSeedsOut ++ [addr])

/-- The function `convertSeed6(vSeedsOut, data, count)` with `count` the length of
`data`, as at both call sites (`ARRAYLEN`). -/
def convertSeed6 (clk : SeedClock) (vSeedsOut : List CAddress) (data : List SeedSpec6) :
    List CAddress :=
  convertSeed6Loop clk 0 data vSeedsOut

/-- One operand pushed on a `CScript` with `operator<<`. -/
inductive ScriptPush where
  | int (n : Int)
  | bignum (n : Int)
  | data (bytes : List Nat)
deriving DecidableEq, Repr

/-- A `CScript` as the sequence of operands pushed on it. -/
abbrev CScript := List ScriptPush

/-- The member of `CTxIn` that the constructor writes. -/
structure CTxIn where
  scriptSig : CScript
deriving DecidableEq, Repr

/-- A transaction output: amount and script. -/
structure CTxOut where
  nValue : Int
  scriptPubKey : CScript
deriving DecidableEq, Repr

/-- The call `vout[0].SetEmpty()`: no amount, no script. -/
def CTxOut.SetEmpty (_o : CTxOut) : CTxOut := { nValue := 0, scriptPubKey := [] }

/-- The transaction built by `CTransaction(nVersion, nTime, vin, vout, nLockTime)`. -/
structure CTransaction where
  nVersion : Int
  nTime : Nat
  vin : List CTxIn
  vout : List CTxOut
  nLockTime : Nat
deriving DecidableEq, Repr

/-- The header fields of `CBlock` and its transaction list. -/
structure CBlock where
  nVersion : Int
  hashPrevBlock : Nat
  hashMerkleRoot : Nat
  nTime : Nat
  nBits : Nat
  nNonce : Nat
  vtx : List CTransaction
deriving DecidableEq, Repr

/-- Functions and tables the constructors use from headers outside the embedded
sources: the value-initialised `CTxIn`, `CTxOut` and `CBlock`,
`CBlock::BuildMerkleTree`, `CBlock::GetHash`, `CBigNum::GetCompact`, and the
seed tables of `chainparamsseeds.h`. -/
structure Externals where
  CTxIn_default : CTxIn
  CTxOut_default : CTxOut
  CBlock_default : CBlock
  BuildMerkleTree : CBlock → Nat
  GetHash : CBlock → Nat
  GetCompact : Nat → Nat
  pnSeed6_main : List SeedSpec6
  pnSeed6_test : List SeedSpec6

/-- The index type of `base58Prefixes`. -/
inductive Base58Type where
  | PUBKEY_ADDRESS
  | SCRIPT_ADDRESS
  | SECRET_KEY
  | EXT_PUBLIC_KEY
  | EXT_SECRET_KEY
deriving DecidableEq, Repr

/-- A DNS seed entry `CDNSSeedData(name, host)`. -/
structure CDNSSeedData where
  name : String
  host : String
deriving DecidableEq, Repr

/-- The members of the base class `CChainParams` that the constructors assign. -/
structure CChainParams where
  pchMessageStart : List Nat
  nDefaultPort : Nat
  nRPCPort : Nat
  bnProofOfWorkLimit : Nat
  strDataDir : String
  vSeeds : List CDNSSeedData
  base58Prefixes : Base58Type → List Nat
  hashGenesisBlock : Nat
  nLastPOWBlock : Nat

/-- The class `CMainParams : public CChainParams` with its two protected members. -/
structure CMainParams extends CChainParams where
  genesis : CBlock
  vFixedSeeds : List CAddress

/-- The class `CTestNetParams : public CMainParams`; it adds no member. -/
structure CTestNetParams extends CMainParams

/-- Assignment `arr[k] = v` on the array `base58Prefixes`. -/
def setPrefix (arr : Base58Type → List Nat) (k : Base58Type) (v : List Nat) :
    Base58Type → List Nat :=
  fun j => if j = k then v else arr j

/-- The value `~uint256(0)`. -/
def uint256_max : Nat := 2 ^ 256 - 1

/-- The bytes of `pszTimestamp` in the mainnet constructor. -/
def pszTimestamp : String :=
  "Bittrex Bars Users Residing in 5 Countries Under US Embargo | JP Buntinx | The Merkle | March 6, 2018"

/-- The object a static `CMainParams` is before its constructor body runs:
zero-initialised scalars, empty containers, and the default `genesis`. -/
def CMainParams.blank (E : Externals) : CMainParams :=
  { pchMessageStart := [0, 0, 0, 0]
    nDefaultPort := 0
    nRPCPort := 0
    bnProofOfWorkLimit := 0
    strDataDir := ""
    vSeeds := []
    base58Prefixes := fun _ => []
    hashGenesisBlock := 0
    nLastPOWBlock := 0
    genesis := E.CBlock_default
    vFixedSeeds := [] }

/-- The statement `assert(c)`: the constructor stops with the message when the
condition is false. -/
def assertThat (c : Bool) (msg : String) : Except String Unit :=
  if c then .ok () else .error msg

/-- The constructor `CMainParams::CMainParams()`. -/
def CMainParams.construct (E : Externals) (clk : SeedClock) : Except String CMainParams := do
  let p : CMainParams := CMainParams.blank E
  let p : CMainParams := { p with pchMessageStart := p.pchMessageStart.set 0 0x61 }
  let p : CMainParams := { p with pchMessageStart := p.pchMessageStart.set 1 0x32 }
  let p : CMainParams := { p with pchMessageStart := p.pchMessageStart.set 2 0x70 }
  let p : CMainParams := { p with pchMessageStart := p.pchMessageStart.set 3 0x3a }
  let p : CMainParams := { p with nDefaultPort := 13546 }
  let p : CMainParams := { p with nRPCPort := 13547 }
  let p : CMainParams := { p with bnProofOfWorkLimit := uint256_max >>> 16 }
  let vin : List CTxIn := [E.CTxIn_default]
  let vin : List CTxIn := vin.set 0 { (vin.getD 0 E.CTxIn_default) with
    scriptSig := [.int 0, .bignum 42, .data (pszTimestamp.toList.map Char.toNat)] }
  let vout : List CTxOut := [E.CTxOut_default]
  let vout : List CTxOut := vout.set 0 (vout.getD 0 E.CTxOut_default).SetEmpty
  let txNew : CTransaction :=
    { nVersion := 1, nTime := 1520366800, vin := vin, vout := vout, nLockTime := 0 }
  let p : CMainParams := { p with genesis := { p.genesis with vtx := p.genesis.vtx ++ [txNew] } }
  let p : CMainParams := { p with genesis := { p.genesis with hashPrevBlock := 0 } }
  let p : CMainParams := { p with genesis := { p.genesis with hashMerkleRoot := E.BuildMerkleTree p.genesis } }
  let p : CMainParams := { p with genesis := { p.genesis with nVersion := 1 } }
  let p : CMainParams := { p with genesis := { p.genesis with nTime := 1520366800 } }
  let p : CMainParams := { p with genesis := { p.genesis with nBits := E.GetCompact p.bnProofOfWorkLimit } }
  let p : CMainParams := { p with genesis := { p.genesis with nNonce := 53683 } }
  let p : CMainParams := { p with hashGenesisBlock := E.GetHash p.genesis }
  assertThat (p.hashGenesisBlock ==
      0x0000aab7dff29b0749519a7886b8a8d3f2806eb5dd861f9a0dbb7441f9a97f6a)
    "hashGenesisBlock == uint256(0x0000aab7...)"
  assertThat (p.genesis.hashMerkleRoot ==
      0x22a2e4e28386bf75759112222b20cf3b889cd60f5e55d7184f8dbdec4d8dc6ff)
    "genesis.hashMerkleRoot == uint256(0x22a2e4e2...)"
  let p : CMainParams := { p with vSeeds := p.vSeeds ++ [{ name := "seed1", host := "64.150.189.104" }] }
  let p : CMainParams := { p with base58Prefixes := setPrefix p.base58Prefixes .PUBKEY_ADDRESS [34] }
  let p : CMainParams := { p with base58Prefixes := setPrefix p.base58Prefixes .SCRIPT_ADDRESS [62] }
  let p : CMainParams := { p with base58Prefixes := setPrefix p.base58Prefixes .SECRET_KEY [83] }
  let p : CMainParams := { p with
    base58Prefixes := setPrefix p.base58Prefixes .EXT_PUBLIC_KEY [0x1f, 0x46, 0x20, 0x9f] }
  let p : CMainParams := { p with
    base58Prefixes := setPrefix p.base58Prefixes .EXT_SECRET_KEY [0x1f, 0x88, 0x95, 0xbf] }
  let p : CMainParams := { p with vFixedSeeds := convertSeed6 clk p.vFixedSeeds E.pnSeed6_main }
  let p : CMainParams := { p with nLastPOWBlock := 0x7fffffff }
  return p

/-- The constructor `CTestNetParams::CTestNetParams()`: the base-class
constructor `CMainParams()` runs first, then the body. -/
def CTestNetParams.construct (E : Externals) (clkBase clk : SeedClock) :
    Except String CTestNetParams := do
  let p ← CMainParams.construct E clkBase
  let p : CMainParams := { p with pchMessageStart := p.pchMessageStart.set 0 0x05 }
  let p : CMainParams := { p with pchMessageStart := p.pchMessageStart.set 1 0x6c }
  let p : CMainParams := { p with pchMessageStart := p.pchMessageStart.set 2 0x9c }
  let p : CMainParams := { p with pchMessageStart := p.pchMessageStart.set 3 0x70 }
  let p : CMainParams := { p with bnProofOfWorkLimit := uint256_max >>> 14 }
  let p : CMainParams := { p with nDefaultPort := 23536 }
  let p : CMainParams := { p with nRPCPort := 23537 }
  let p : CMainParams := { p with strDataDir := "testnet" }
  let p : CMainParams := { p with genesis := { p.genesis with nBits := E.GetCompact p.bnProofOfWorkLimit } }
  let p : CMainParams := { p with genesis := { p.genesis with nNonce := 13731 } }
  let p : CMainParams := { p with hashGenesisBlock := E.GetHash p.genesis }
  assertThat (p.hashGenesisBlock ==
      0x000149d0c0dec3468068735e9f9ccdd6d329ed2f6f60add7459773e502f067c5)
    "hashGenesisBlock == uint256(0x000149d0...)"
  let p : CMainParams := { p with vFixedSeeds := [] }
  let p : CMainParams := { p with vSeeds := [] }
  let p : CMainParams := { p with base58Prefixes := setPrefix p.base58Prefixes .PUBKEY_ADDRESS [32] }
  let p : CMainParams := { p with base58Prefixes := setPrefix p.base58Prefixes .SCRIPT_ADDRESS [63] }
  let p : CMainParams := { p with base58Prefixes := setPrefix p.base58Prefixes .SECRET_KEY [145] }
  let p : CMainParams := { p with
    base58Prefixes := setPrefix p.base58Prefixes .EXT_PUBLIC_KEY [0x82, 0x3a, 0xa0, 0x03] }
  let p : CMainParams := { p with
    base58Prefixes := setPrefix p.base58Prefixes .EXT_SECRET_KEY [0x82, 0x3a, 0x06, 0x97] }
  let p : CMainParams := { p with vFixedSeeds := convertSeed6 clk p.vFixedSeeds E.pnSeed6_test }
  let p : CMainParams := { p with nLastPOWBlock := 0x7fffffff }
  return { toCMainParams := p }

/-- Modelled from the spec: the enumeration `CChainParams::Network` is declared in
`chainparams.h`, outside the embedded sources.  The spec names the two
supported networks and speaks of any other value; `other v` stands for an
enumerator or integer value that is neither. -/
inductive Network where
  | MAIN
  | TESTNET
  | other (v : Nat)
deriving DecidableEq, Repr

/-- The target of the pointer `pCurrentParams`: one of the two static objects. -/
inductive ParamsPtr where
  | mainParams
  | testNetParams
deriving DecidableEq, Repr

/-- The file-level statics of `chainparams.cpp`. -/
structure ChainGlobals where
  mainParams : CMainParams
  testNetParams : CTestNetParams
  pCurrentParams : ParamsPtr

/-- What a `const CChainParams&` refers to: an object together with its dynamic
class, which decides the virtual calls. -/
inductive ParamsObject where
  | ofMain (p : CMainParams)
  | ofTestNet (p : CTestNetParams)

/-- The virtual `NetworkID()`, overridden in both classes. -/
def ParamsObject.NetworkID : ParamsObject → Network
  | .ofMain _ => .MAIN
  | .ofTestNet _ => .TESTNET

/-- The virtual `GenesisBlock()`, defined in `CMainParams` and inherited. -/
def ParamsObject.GenesisBlock : ParamsObject → CBlock
  | .ofMain p => p.genesis
  | .ofTestNet p => p.genesis

/-- The base-class part of the object, for the non-virtual getters. -/
def ParamsObject.base : ParamsObject → CChainParams
  | .ofMain p => p.toCChainParams
  | .ofTestNet p => p.toCChainParams

/-- The getter `GetDefaultPort()`. -/
def ParamsObject.GetDefaultPort (o : ParamsObject) : Nat := o.base.nDefaultPort

/-- Static initialisation of the translation unit: `mainParams`, then
`testNetParams`, then `pCurrentParams = &mainParams`. -/
def staticInit (E : Externals) (clkMain clkTestBase clkTest : SeedClock) :
    Except String ChainGlobals := do
  let mainParams ← CMainParams.construct E clkMain
  let testNetParams ← CTestNetParams.construct E clkTestBase clkTest
  return { mainParams := mainParams, testNetParams := testNetParams,
           pCurrentParams := .mainParams }

/-- The function `Params()`: `return *pCurrentParams`. -/
def Params (g : ChainGlobals) : ParamsObject :=
  match g.pCurrentParams with
  | .mainParams => .ofMain g.mainParams
  | .testNetParams => .ofTestNet g.testNetParams

/-- The function `SelectParams(network)`.  The result pairs the outcome (the failed
assertion of the `default` branch is an error) with the statics afterwards. -/
def SelectParams (g : ChainGlobals) (network : Network) : Except String Unit × ChainGlobals :=
  match network with
  | .MAIN => (.ok (), { g with pCurrentParams := .mainParams })
  | .TESTNET => (.ok (), { g with pCurrentParams := .testNetParams })
  | .other _ => (.error "Unimplemented network", g)

/-- The function `SelectParamsFromCommandLine()`, with `fTestNet` the value of
`GetBoolArg("-testnet", false)`. -/
def SelectParamsFromCommandLine (g : ChainGlobals) (fTestNet : Bool) :
    Except String Bool × ChainGlobals :=
  if fTestNet then
    match SelectParams g .TESTNET with
    | (.ok _, g1) => (.ok true, g1)
    | (.error e, g1) => (.error e, g1)
  else
    match SelectParams g .MAIN with
    | (.ok _, g1) => (.ok true, g1)
    | (.error e, g1) => (.error e, g1)

/-! ## rpcnet.cpp -/

/-- A JSON value of the RPC layer (`json_spirit::Value`): the kinds of value the
embedded handlers receive or build. -/
inductive Value where
  | null : Value
  | bool (b : Bool) : Value
  | int (n : Int) : Value
  | real (x : Float) : Value
  | str (s : String) : Value
  | array (xs : List Value) : Value
  | obj (ps : List (String × Value)) : Value

/-- The error codes used by the embedded handlers. -/
inductive RPCErrorCode where
  | RPC_CLIENT_NODE_ALREADY_ADDED
  | RPC_CLIENT_NODE_NOT_ADDED
deriving DecidableEq, Repr

/-- What an RPC handler throws: a `runtime_error` with its text (the usage
message), a `JSONRPCError(code, message)`, or the exception of the JSON
library when `get_str` or `get_bool` meets a value of another kind. -/
inductive RpcError where
  | runtime_error (what : String)
  | JSONRPCError (code : RPCErrorCode) (message : String)
  | bad_value_type
deriving DecidableEq, Repr

/-- The accessor `Value::get_str()`. -/
def Value.get_str : Value → Except RpcError String
  | .str s => .ok s
  | _ => .error .bad_value_type

/-- The accessor `Value::get_bool()`. -/
def Value.get_bool : Value → Except RpcError Bool
  | .bool b => .ok b
  | _ => .error .bad_value_type

/-- The members of `CNode` that the embedded code reads or writes. -/
structure CNode where
  addr : CAddress
  fInbound : Bool
  fPingQueued : Bool
deriving DecidableEq, Repr

/-- The shared peer state of `net.cpp` as the embedded handlers see it: the live
peers `vNodes`, the added-node list `vAddedNodes`, and the destinations
`ConnectNode` has been called with, oldest first.  The function `ConnectNode`
itself is defined outside the embedded sources; `dial` stands for it: given the
live peers and a destination it answers the pointer the call returns (`none`
for `NULL`, when no connection is made) and the live peers afterwards. -/
structure NetGlobals where
  vNodes : List CNode
  vAddedNodes : List String
  connectCalls : List String
  dial : List CNode → String → Option CNode × List CNode

/-- The call `ConnectNode(addr, pszDest)` with a default `addr`: `pszDest` is
dialled once.  The call is recorded, the live peers become what the dial leaves,
and the pointer it returns is handed back. -/
def ConnectNode (g : NetGlobals) (pszDest : String) : Option CNode × NetGlobals :=
  let r := g.dial g.vNodes pszDest
  (r.1, { g with vNodes := r.2, connectCalls := g.connectCalls ++ [pszDest] })

/-- The usage text of `addnode`. -/
def addnodeUsage : String :=
  "addnode <node> <add|remove|onetry>\nAttempts add or remove <node> from the addnode list or try a connection to <node> once."

/-- The search loop of `addnode`: the position of the first entry equal to
`strNode`, or the length of the list (the `end()` iterator) when there is none. -/
def findAdded : List String → String → Nat
  | [], _ => 0
  | s :: rest, strNode => if strNode == s then 0 else findAdded rest strNode + 1

/-- The handler `addnode(params, fHelp)`.  The result pairs what the call returns
or throws with the peer state afterwards. -/
def addnode (g : NetGlobals) (params : List Value) (fHelp : Bool) :
    Except RpcError Value × NetGlobals :=
  let strCommandR : Except RpcError String :=
    if params.length = 2 then (params.getD 1 .null).get_str else .ok ""
  match strCommandR with
  | .error e => (.error e, g)
  | .ok strCommand =>
    if fHelp || params.length != 2 ||
        (strCommand != "onetry" && strCommand != "add" && strCommand != "remove") then
      (.error (.runtime_error addnodeUsage), g)
    else
      match (params.getD 0 .null).get_str with
      | .error e => (.error e, g)
      | .ok strNode =>
        if strCommand == "onetry" then
          let (_pnode, g1) := ConnectNode g strNode
          (.ok .null, g1)
        else
          let it := findAdded g.vAddedNodes strNode
          if strCommand == "add" then
            if it != g.vAddedNodes.length then
              (.error (.JSONRPCError .RPC_CLIENT_NODE_ALREADY_ADDED "Error: Node already added"), g)
            else
              (.ok .null, { g with vAddedNodes := g.vAddedNodes ++ [strNode] })
          else if strCommand == "remove" then
            if it == g.vAddedNodes.length then
              (.error (.JSONRPCError .RPC_CLIENT_NODE_NOT_ADDED "Error: Node has not been added."),
                g)
            else
              (.ok .null, { g with vAddedNodes := g.vAddedNodes.eraseIdx it })
          else
            (.ok .null, g)

/-- What `getaddednodeinfo` uses from outside the embedded sources: the resolver
`Lookup(name, vAddr, portDefault, fAllowLookup, nMaxSolutions)`, which answers
`none` when it returns false and the addresses it found otherwise, the flag
`fNameLookup`, and `CService::ToString`. -/
structure NetExternals where
  Lookup : String → Nat → Bool → Nat → Option (List CService)
  fNameLookup : Bool
  ToString : CService → String

/-- The usage text of `getaddednodeinfo`. -/
def getaddednodeinfoUsage : String :=
  "getaddednodeinfo <dns> [node]\nReturns information about the given added node, or all added nodes\n(note that onetry addnodes are not listed here)\nIf dns is false, only a list of added nodes will be provided,\notherwise connected information will also be available."

/-- The selection loop of `getaddednodeinfo` when a node is named: the first entry
equal to `strNode`, alone, or nothing. -/
def selectNamed : List String → String → List String
  | [], _ => []
  | strAddNode :: rest, strNode =>
    if strAddNode == strNode then [strAddNode] else selectNamed rest strNode

/-- The resolution loop of `getaddednodeinfo`.  A name that resolves is queued with
its addresses in `laddedAddreses`; for a name that does not, an object is
built in the `else` branch and goes out of scope there. -/
def resolveAdded (X : NetExternals) (portDefault : Nat) :
    List String → List (String × List CService) → List (String × List CService)
  | [], laddedAddreses => laddedAddreses
  | strAddNode :: rest, laddedAddreses =>
    match X.Lookup strAddNode portDefault X.fNameLookup 0 with
    | some vservNode => resolveAdded X portDefault rest (laddedAddreses ++ [(strAddNode, vservNode)])
    | none =>
      let _obj : Value :=
        .obj [("addednode", .str strAddNode), ("connected", .bool false), ("addresses", .array [])]
      resolveAdded X portDefault rest laddedAddreses

/-- The loop over the resolved addresses of one added node: one record per address,
and the flag `fConnected`. -/
def scanAddresses (X : NetExternals) (vNodes : List CNode) :
    List CService → List Value → Bool → List Value × Bool
  | [], addresses, fConnected => (addresses, fConnected)
  | addrNode :: rest, addresses, fConnected =>
    let node : List (String × Value) := [("address", .str (X.ToString addrNode))]
    match vNodes.find? (fun pnode => pnode.addr.svc == addrNode) with
    | some pnode =>
      let node := node ++ [("connected", .str (if pnode.fInbound then "inbound" else "outbound"))]
      scanAddresses X vNodes rest (addresses ++ [.obj node]) true
    | none =>
      let node := node ++ [("connected", .str "false")]
      scanAddresses X vNodes rest (addresses ++ [.obj node]) fConnected

/-- The final loop of `getaddednodeinfo` over `laddedAddreses`. -/
def reportAdded (X : NetExternals) (vNodes : List CNode) :
    List (String × List CService) → List Value → List Value
  | [], ret => ret
  | it :: rest, ret =>
    let obj : List (String × Value) := [("addednode", .str it.1)]
    let (addresses, fConnected) := scanAddresses X vNodes it.2 [] false
    let obj := obj ++ [("connected", .bool fConnected)]
    let obj := obj ++ [("addresses", .array addresses)]
    reportAdded X vNodes rest (ret ++ [.obj obj])

/-- The handler `getaddednodeinfo(params, fHelp)`; `c` holds the statics behind
`Params()`. -/
def getaddednodeinfo (X : NetExternals) (c : ChainGlobals) (g : NetGlobals)
    (params : List Value) (fHelp : Bool) : Except RpcError Value × NetGlobals :=
  if fHelp || params.length < 1 || params.length > 2 then
    (.error (.runtime_error getaddednodeinfoUsage), g)
  else
    match (params.getD 0 .null).get_bool with
    | .error e => (.error e, g)
    | .ok fDns =>
      let selected : Except RpcError (List String) :=
        if params.length = 1 then
          .ok g.vAddedNodes
        else
          match (params.getD 1 .null).get_str with
          | .error e => .error e
          | .ok strNode =>
            let laddedNodes := selectNamed g.vAddedNodes strNode
            if laddedNodes.length = 0 then
              .error (.JSONRPCError .RPC_CLIENT_NODE_NOT_ADDED "Error: Node has not been added.")
            else .ok laddedNodes
      match selected with
      | .error e => (.error e, g)
      | .ok laddedNodes =>
        if !fDns then
          (.ok (.obj (laddedNodes.map (fun strAddNode => ("addednode", Value.str strAddNode)))), g)
        else
          let laddedAddreses := resolveAdded X (Params c).GetDefaultPort laddedNodes []
          (.ok (.array (reportAdded X g.vNodes laddedAddreses [])), g)

/-- The usage text of `ping`. -/
def pingUsage : String :=
  "ping\nRequests that a ping be sent to all other nodes, to measure ping time.\nResults provided in getpeerinfo, pingtime and pingwait fields are decimal seconds.\nPing command is handled in queue with all other commands, so it measures processing backlog, not just network ping."

/-- The loop of `ping`: `pNode->fPingQueued = true` for each live peer. -/
def queuePings : List CNode → List CNode
  | [] => []
  | pNode :: rest => { pNode with fPingQueued := true } :: queuePings rest

/-- The handler `ping(params, fHelp)`. -/
def ping (g : NetGlobals) (params : List Value) (fHelp : Bool) :
    Except RpcError Value × NetGlobals :=
  if fHelp || params.length != 0 then
    (.error (.runtime_error pingUsage), g)
  else
    (.ok .null, { g with vNodes := queuePings g.vNodes })

/-- The members of `CNodeStats` that `getpeerinfo` reads. -/
structure CNodeStats where
  addrName : String
  addrLocal : String
  nServices : Nat
  nLastSend : Int
  nLastRecv : Int
  nSendBytes : Nat
  nRecvBytes : Nat
  nTimeConnected : Int
  nTimeOffset : Int
  dPingTime : Float
  dPingWait : Float
  nVersion : Int
  strSubVer : String
  fInbound : Bool
  nStartingHeight : Int
  nMisbehavior : Int
  fSyncNode : Bool

/-- What the peer snapshot uses from outside the embedded sources:
`CNode::copyStats`, as the record it fills in for a peer, and the formatting
`strprintf("%08x", n)`. -/
structure PeerExternals where
  copyStats : CNode → CNodeStats
  strprintf_08x : Nat → String

/-- The loop of `CopyNodeStats`: one filled-in record pushed per live peer. -/
def copyNodeStatsLoop (P : PeerExternals) : List CNode → List CNodeStats → List CNodeStats
  | [], vstats => vstats
  | pnode :: rest, vstats =>
    let stats := P.copyStats pnode
    copyNodeStatsLoop P rest (vstats ++ [stats])

/-- The function `CopyNodeStats(vstats)`: the vector is cleared, then filled. -/
def CopyNodeStats (P : PeerExternals) (vNodes : List CNode) (_vstats : List CNodeStats) :
    List CNodeStats :=
  let vstats : List CNodeStats := []
  copyNodeStatsLoop P vNodes vstats

/-- The cast `(int64_t)x`: the value of `x` wrapped into the signed 64-bit range. -/
def toInt64 (x : Int) : Int :=
  (x + 2 ^ 63) % 2 ^ 64 - 2 ^ 63

/-- The body of the loop of `getpeerinfo`: the object built for one record.  The
byte counters `nSendBytes` and `nRecvBytes` are unsigned 64-bit numbers; they
and the three times are cast with `(int64_t)`. -/
def peerObject (P : PeerExternals) (stats : CNodeStats) : Value :=
  let obj : List (String × Value) := []
  let obj := obj ++ [("addr", .str stats.addrName)]
  let obj := if !(stats.addrLocal == "") then obj ++ [("addrlocal", .str stats.addrLocal)] else obj
  let obj := obj ++ [("services", .str (P.strprintf_08x stats.nServices))]
  let obj := obj ++ [("lastsend", .int (toInt64 stats.nLastSend))]
  let obj := obj ++ [("lastrecv", .int (toInt64 stats.nLastRecv))]
  let obj := obj ++ [("bytessent", .int (toInt64 stats.nSendBytes))]
  let obj := obj ++ [("bytesrecv", .int (toInt64 stats.nRecvBytes))]
  let obj := obj ++ [("conntime", .int (toInt64 stats.nTimeConnected))]
  let obj := obj ++ [("timeoffset", .int stats.nTimeOffset)]
  let obj := obj ++ [("pingtime", .real stats.dPingTime)]
  let obj := if stats.dPingWait > 0.0 then obj ++ [("pingwait", .real stats.dPingWait)] else obj
  let obj := obj ++ [("version", .int stats.nVersion)]
  let obj := obj ++ [("subver", .str stats.strSubVer)]
  let obj := obj ++ [("inbound", .bool stats.fInbound)]
  let obj := obj ++ [("startingheight", .int stats.nStartingHeight)]
  let obj := obj ++ [("banscore", .int stats.nMisbehavior)]
  let obj := obj ++ [("syncnode", .bool stats.fSyncNode)]
  .obj obj

/-- The loop of `getpeerinfo` over the copied records. -/
def peerInfoLoop (P : PeerExternals) : List CNodeStats → List Value → List Value
  | [], ret => ret
  | stats :: rest, ret => peerInfoLoop P rest (ret ++ [peerObject P stats])

/-- The usage text of `getpeerinfo`. -/
def getpeerinfoUsage : String :=
  "getpeerinfo\nReturns data about each connected network node."

/-- The handler `getpeerinfo(params, fHelp)`. -/
def getpeerinfo (P : PeerExternals) (g : NetGlobals) (params : List Value) (fHelp : Bool) :
    Except RpcError Value × NetGlobals :=
  if fHelp || params.length != 0 then
    (.error (.runtime_error getpeerinfoUsage), g)
  else
    let vstats : List CNodeStats := []
    let vstats := CopyNodeStats P g.vNodes vstats
    (.ok (.array (peerInfoLoop P vstats [])), g)

/-- A number read as a signed 64-bit value: its residue modulo `2^64`, taken
negative from `2^63` on. -/
def asSigned64 (x : Int) : Int :=
  if x % 2 ^ 64 < 2 ^ 63 then x % 2 ^ 64 else x % 2 ^ 64 - 2 ^ 64

/-- The pairs of the object that `getpeerinfo` reports for one record, as a list:
the address; the local address when there is one; the services in hexadecimal;
send and receive times, byte counts and connection time as signed 64-bit
numbers; time offset and ping time; the ping wait when it is positive; then
version, subversion, direction, starting height, ban score and the sync flag. -/
def peerPairsSpec (P : PeerExternals) (st : CNodeStats) : List (String × Value) :=
  [("addr", Value.str st.addrName)]
    ++ (if st.addrLocal = "" then [] else [("addrlocal", Value.str st.addrLocal)])
    ++ [("services", Value.str (P.strprintf_08x st.nServices)),
        ("lastsend", Value.int (asSigned64 st.nLastSend)),
        ("lastrecv", Value.int (asSigned64 st.nLastRecv)),
        ("bytessent", Value.int (asSigned64 st.nSendBytes)),
        ("bytesrecv", Value.int (asSigned64 st.nRecvBytes)),
        ("conntime", Value.int (asSigned64 st.nTimeConnected)),
        ("timeoffset", Value.int st.nTimeOffset),
        ("pingtime", Value.real st.dPingTime)]
    ++ (if st.dPingWait > 0.0 then [("pingwait", Value.real st.dPingWait)] else [])
    ++ [("version", Value.int st.nVersion),
        ("subver", Value.str st.strSubVer),
        ("inbound", Value.bool st.fInbound),
        ("startingheight", Value.int st.nStartingHeight),
        ("banscore", Value.int st.nMisbehavior),
        ("syncnode", Value.bool st.fSyncNode)]

/-- A run of `addnode` calls with string parameters, each given as the pair of
its node and its command, applied one after the other. -/
def runAddnode (g : NetGlobals) : List (String × String) → NetGlobals
  | [] => g
  | call :: rest => runAddnode (addnode g [.str call.1, .str call.2] false).2 rest

/-- The record the spec describes for one resolved address: its text, and
`inbound` or `outbound` after the first live peer with that address, `false`
when there is none. -/
def addressRecordSpec (X : NetExternals) (vNodes : List CNode) (a : CService) : Value :=
  .obj [("address", .str (X.ToString a)),
        ("connected", .str (match vNodes.find? (fun pnode => pnode.addr.svc == a) with
          | some pnode => if pnode.fInbound then "inbound" else "outbound"
          | none => "false"))]

/-- The entry the spec describes for an added node that resolved: its name, whether
some resolved address is that of a live peer, and one record per resolved
address in resolution order. -/
def addedEntrySpec (X : NetExternals) (vNodes : List CNode) (name : String)
    (vservNode : List CService) : Value :=
  .obj [("addednode", .str name),
        ("connected", .bool (vservNode.any (fun a => vNodes.any (fun pnode => pnode.addr.svc == a)))),
        ("addresses", .array (vservNode.map (addressRecordSpec X vNodes)))]

/-- The added nodes that resolve, each with its resolved addresses, in list order. -/
def resolvedSpec (X : NetExternals) (portDefault : Nat) (names : List String) :
    List (String × List CService) :=
  names.filterMap (fun s => (X.Lookup s portDefault X.fNameLookup 0).map (fun v => (s, v)))

/-! ## qt/clientmodel.cpp -/

/-- The enumerators of `enum NumConnections`, declared in `clientmodel.h` outside
the embedded sources. -/
structure NumConnections where
  CONNECTIONS_IN : Nat
  CONNECTIONS_OUT : Nat
  CONNECTIONS_ALL : Nat
deriving DecidableEq, Repr

/-- The counting loop of `getNumConnections`. -/
def countConnections (K : NumConnections) (flags : Nat) : List CNode → Nat → Nat
  | [], nNum => nNum
  | pnode :: rest, nNum =>
    if flags &&& (if pnode.fInbound then K.CONNECTIONS_IN else K.CONNECTIONS_OUT) != 0 then
      countConnections K flags rest (nNum + 1)
    else
      countConnections K flags rest nNum

/-- The method `ClientModel::getNumConnections(flags)` over the live peers.  The
count is a natural number: a peer list stays far below the range of `int`. -/
def getNumConnections (K : NumConnections) (vNodes : List CNode) (flags : Nat) : Nat :=
  if flags == K.CONNECTIONS_ALL then
    vNodes.length
  else
    countConnections K flags vNodes 0

/-! ## checkpoints.h -/

/-- Modelled from the spec: `Checkpoints::CheckHardened(nHeight, hash)` is declared
in `checkpoints.h`; its body and the bundled table are in a file outside the
embedded sources.  The spec: look up whether a checkpoint exists at the height;
if one does, the call succeeds only if the hash matches exactly; if none exists
at that height, the call succeeds.  The table is a parameter: the bundled
`(height, hash)` pairs, ordered by height. -/
def CheckHardened (mapCheckpoints : List (Int × Nat)) (nHeight : Int) (hash : Nat) : Bool :=
  match mapCheckpoints.find? (fun cp => cp.1 == nHeight) with
  | none => true
  | some cp => hash == cp.2

/-- The data-model invariant of the bundled table: heights strictly increasing. -/
def checkpointsOrdered (mapCheckpoints : List (Int × Nat)) : Prop :=
  mapCheckpoints.Pairwise (fun a b => a.1 < b.1)

/-! ## fork.h -/

/-- The constant `nUpgrade_01` of `fork.h`: the height at which System Upgrade 01
takes effect. -/
def nUpgrade_01 : Int := 472178

/-- Modelled from the spec: the activation predicate is used by the consensus code,
outside the embedded sources, which hold only the constant.  The spec:
`IsActive(upgradeName, height)` is true iff `height` is at least the activation
height of the upgrade. -/
def IsActive (activationHeight : Int) (height : Int) : Bool :=
  decide (height ≥ activationHeight)

/-! ## qt/guiutil.cpp -/

/-- The call `s.startsWith(p)` on a `QString`. -/
def QString.startsWith (s p : String) : Bool :=
  p.data.isPrefixOf s.data

/-- The call `s.replace(position, n, after)` on a `QString`: the `n` characters
from `position` on, or as many as there are, give way to `after`. -/
def QString.replace (s : String) (position n : Nat) (after : String) : String :=
  String.mk (s.data.take position ++ after.data ++ s.data.drop (position + n))

/-- The call `s.remove(position, n)` on a `QString`. -/
def QString.remove (s : String) (position n : Nat) : String :=
  String.mk (s.data.take position ++ s.data.drop (position + n))

/-- The parts of a `QUrl` that `parseEraURI` reads. -/
structure QUrl where
  scheme : String
  path : String
  queryItems : List (String × String)
deriving DecidableEq, Repr

/-- The members of `SendCoinsRecipient` that `parseEraURI` writes. -/
structure SendCoinsRecipient where
  address : String
  label : String
  amount : Int
deriving DecidableEq, Repr

/-- What `parseEraURI` uses from outside the embedded sources: the constructor
`QUrl(const QString&)`, and `EraUnits::parse(EraUnits::ERA, value, &amount)`,
which answers `none` when it returns false and the parsed amount otherwise. -/
structure GuiExternals where
  QUrl_ofString : String → QUrl
  EraUnits_parse : String → Option Int

/-- The loop of `parseEraURI(const QUrl&, ...)` over the query items; `none` stands
for the `return false` inside the loop. -/
def parseQueryItems (G : GuiExternals) :
    List (String × String) → SendCoinsRecipient → Option SendCoinsRecipient
  | [], rv => some rv
  | i :: rest, rv =>
    let fShouldReturnFalse := false
    let hasReq := QString.startsWith i.1 "req-"
    let first := if hasReq then QString.remove i.1 0 4 else i.1
    let fShouldReturnFalse := if hasReq then true else fShouldReturnFalse
    if first == "label" then
      let rv := { rv with label := i.2 }
      let fShouldReturnFalse := false
      if fShouldReturnFalse then none else parseQueryItems G rest rv
    else if first == "amount" then
      if !(i.2 == "") then
        match G.EraUnits_parse i.2 with
        | none => none
        | some amount =>
          let rv := { rv with amount := amount }
          let fShouldReturnFalse := false
          if fShouldReturnFalse then none else parseQueryItems G rest rv
      else
        let fShouldReturnFalse := false
        if fShouldReturnFalse then none else parseQueryItems G rest rv
    else
      if fShouldReturnFalse then none else parseQueryItems G rest rv

/-- The function `parseEraURI(const QUrl &uri, SendCoinsRecipient *out)`; `out` is
`none` for a null pointer.  The result pairs the returned flag with `*out`
afterwards. -/
def parseEraURI_QUrl (G : GuiExternals) (uri : QUrl) (out : Option SendCoinsRecipient) :
    Bool × Option SendCoinsRecipient :=
  if uri.scheme != "era" then
    (false, out)
  else
    let rv : SendCoinsRecipient := { address := "", label := "", amount := 0 }
    let rv := { rv with address := uri.path }
    let rv := { rv with amount := 0 }
    match parseQueryItems G uri.queryItems rv with
    | none => (false, out)
    | some rv =>
      match out with
      | some _ => (true, some rv)
      | none => (true, none)

/-- The local `uri` of `parseEraURI(QString uri, ...)` after its `if`: a string that
starts with `era://` has its first 12 characters replaced by `era:`. -/
def convertEraUri (uri : String) : String :=
  if QString.startsWith uri "era://" then QString.replace uri 0 12 "era:" else uri

/-- The function `parseEraURI(QString uri, SendCoinsRecipient *out)`. -/
def parseEraURI (G : GuiExternals) (uri : String) (out : Option SendCoinsRecipient) :
    Bool × Option SendCoinsRecipient :=
  let uri := convertEraUri uri
  let uriInstance := G.QUrl_ofString uri
  parseEraURI_QUrl G uriInstance out

/-- A sample environment for running the constructors: empty default objects,
no fixed seeds, and digest functions that answer with the documented values
(the block digest told apart by the nonce). -/
def sampleExternals : Externals :=
  { CTxIn_default := { scriptSig := [] }
    CTxOut_default := { nValue := -1, scriptPubKey := [] }
    CBlock_default :=
      { nVersion := 0, hashPrevBlock := 0, hashMerkleRoot := 0, nTime := 0, nBits := 0,
        nNonce := 0, vtx := [] }
    BuildMerkleTree := fun _ =>
      0x22a2e4e28386bf75759112222b20cf3b889cd60f5e55d7184f8dbdec4d8dc6ff
    GetHash := fun b =>
      if b.nNonce = 53683 then
        0x0000aab7dff29b0749519a7886b8a8d3f2806eb5dd861f9a0dbb7441f9a97f6a
      else 0x000149d0c0dec3468068735e9f9ccdd6d329ed2f6f60add7459773e502f067c5
    GetCompact := fun n => n
    pnSeed6_main := []
    pnSeed6_test := [] }

/-- A sample clock: the time stands at 1600000000 and every draw is 0. -/
def sampleClock : SeedClock :=
  { GetTime := fun _ => 1600000000, GetRand := fun _ _ => 0 }

/-- The mainnet object built in the sample environment. -/
def sampleMainParams : CMainParams :=
  match CMainParams.construct sampleExternals sampleClock with
  | .ok m => m
  | .error _ => CMainParams.blank sampleExternals

/-- The testnet object built in the sample environment. -/
def sampleTestNetParams : CTestNetParams :=
  match CTestNetParams.construct sampleExternals sampleClock sampleClock with
  | .ok t => t
  | .error _ => { toCMainParams := CMainParams.blank sampleExternals }

/-! ### Sample inputs for the peer state -/

/-- A sample peer state: no live peer, two added nodes, no dial requested, and a
network on which every dial fails. -/
def sampleNet : NetGlobals :=
  { vNodes := [], vAddedNodes := ["10.0.0.1", "10.0.0.2"], connectCalls := [],
    dial := fun vNodes _ => (none, vNodes) }

/-- A sample resolver environment in which no name resolves. -/
def sampleFailingResolver : NetExternals :=
  { Lookup := fun _ _ _ _ => none, fNameLookup := false, ToString := fun _ => "" }

/-- The statics of `chainparams.cpp` after static initialisation in the sample
environment. -/
def sampleChainGlobals : ChainGlobals :=
  { mainParams := sampleMainParams, testNetParams := sampleTestNetParams,
    pCurrentParams := .mainParams }

/-- A sample live peer. -/
def samplePeer (fInbound : Bool) : CNode :=
  { addr := { svc := { ip := [], port := 13546 }, nTime := 0 }, fInbound := fInbound,
    fPingQueued := false }

/-- The enumerator values `1 << 0`, `1 << 1` and their union. -/
def sampleNumConnections : NumConnections :=
  { CONNECTIONS_IN := 1, CONNECTIONS_OUT := 2, CONNECTIONS_ALL := 3 }

/-- A sample bundled table: two checkpoints. -/
def sampleCheckpoints : List (Int × Nat) :=
  [(0, 0x0000aab7dff29b0749519a7886b8a8d3f2806eb5dd861f9a0dbb7441f9a97f6a), (1000, 0xabc)]

/-- A sample URL reader: the scheme is what stands before the first colon, the path
what follows it up to a question mark; no query item is read. -/
def sampleQUrl (s : String) : QUrl :=
  { scheme := String.mk (s.data.takeWhile (fun ch => ch != ':'))
    path := String.mk (((s.data.dropWhile (fun ch => ch != ':')).drop 1).takeWhile
      (fun ch => ch != '?'))
    queryItems := [] }

/-- A sample environment for `parseEraURI`: the sample URL reader and an amount
reader that accepts nothing. -/
def sampleGui : GuiExternals :=
  { QUrl_ofString := sampleQUrl, EraUnits_parse := fun _ => none }

/-- An empty recipient to write to. -/
def sampleRecipient : SendCoinsRecipient :=
  { address := "", label := "", amount := 0 }

/-- A sample resolver environment in which every name resolves to one address,
port 13546 at an empty host. -/
def sampleResolver : NetExternals :=
  { Lookup := fun _ portDefault _ _ => some [{ ip := [], port := portDefault }],
    fNameLookup := false, ToString := fun _ => "host:13546" }

/-- A sample peer state with one live inbound peer at the address the sample
resolver answers. -/
def sampleNetLive : NetGlobals :=
  { sampleNet with vNodes := [samplePeer true] }

/-- An assertion in front of the rest of a constructor: the whole succeeds exactly
when the condition holds and the rest succeeds. -/
theorem assertThat_bind_ok {α : Type} (c : Bool) (msg : String) (f : Unit → Except String α)
    (r : α) : (assertThat c msg >>= f) = .ok r ↔ c = true ∧ f () = .ok r := by
  cases c <;> simp [assertThat, bind, Except.bind]

theorem sample_main_ok :
    CMainParams.construct sampleExternals sampleClock = .ok sampleMainParams := by
  rfl

theorem sample_test_ok :
    CTestNetParams.construct sampleExternals sampleClock sampleClock
      = .ok sampleTestNetParams := by
  rfl

/-- The mainnet constructor, when its assertions pass, returns the object whose
members are the values assigned in its body. -/
theorem mainParams_construct_ok (E : Externals) (clk : SeedClock) (m : CMainParams)
    (hm : CMainParams.construct E clk = .ok m) :
    m.pchMessageStart = [0x61, 0x32, 0x70, 0x3a] ∧ m.nDefaultPort = 13546 ∧ m.nRPCPort = 13547
      ∧ m.bnProofOfWorkLimit = uint256_max >>> 16
      ∧ m.base58Prefixes = setPrefix (setPrefix (setPrefix (setPrefix (setPrefix (fun _ => [])
          .PUBKEY_ADDRESS [34]) .SCRIPT_ADDRESS [62]) .SECRET_KEY [83])
          .EXT_PUBLIC_KEY [0x1f, 0x46, 0x20, 0x9f]) .EXT_SECRET_KEY [0x1f, 0x88, 0x95, 0xbf]
      ∧ m.genesis.hashPrevBlock = 0 ∧ m.genesis.nVersion = 1 ∧ m.genesis.nTime = 1520366800
      ∧ m.genesis.nBits = E.GetCompact (uint256_max >>> 16) ∧ m.genesis.nNonce = 53683
      ∧ m.genesis.hashMerkleRoot
          = 0x22a2e4e28386bf75759112222b20cf3b889cd60f5e55d7184f8dbdec4d8dc6ff
      ∧ m.hashGenesisBlock
          = 0x0000aab7dff29b0749519a7886b8a8d3f2806eb5dd861f9a0dbb7441f9a97f6a := by
  simp only [CMainParams.construct, assertThat_bind_ok] at hm
  obtain ⟨h1, h2, h3⟩ := hm
  simp only [pure, Except.pure, Except.ok.injEq] at h3
  subst h3
  simp only [beq_iff_eq] at h1 h2
  refine ⟨?_, rfl, rfl, rfl, rfl, rfl, rfl, rfl, rfl, rfl, h2, h1⟩
  simp [CMainParams.blank]

/-- The genesis block of the testnet object is the one its base-class constructor
built, with `nBits` and `nNonce` reassigned; the other members are the values
assigned in the testnet constructor body. -/
theorem testNetParams_construct_ok (E : Externals) (clkBase clk : SeedClock)
    (t : CTestNetParams) (ht : CTestNetParams.construct E clkBase clk = .ok t) :
    ∃ b : CMainParams, CMainParams.construct E clkBase = .ok b
      ∧ t.genesis = { b.genesis with nBits := E.GetCompact (uint256_max >>> 14), nNonce := 13731 }
      ∧ t.pchMessageStart = (((b.pchMessageStart.set 0 0x05).set 1 0x6c).set 2 0x9c).set 3 0x70
      ∧ t.nDefaultPort = 23536 ∧ t.nRPCPort = 23537
      ∧ t.bnProofOfWorkLimit = uint256_max >>> 14
      ∧ t.base58Prefixes = setPrefix (setPrefix (setPrefix (setPrefix (setPrefix b.base58Prefixes
          .PUBKEY_ADDRESS [32]) .SCRIPT_ADDRESS [63]) .SECRET_KEY [145])
          .EXT_PUBLIC_KEY [0x82, 0x3a, 0xa0, 0x03]) .EXT_SECRET_KEY [0x82, 0x3a, 0x06, 0x97]
      ∧ t.hashGenesisBlock
          = 0x000149d0c0dec3468068735e9f9ccdd6d329ed2f6f60add7459773e502f067c5 := by
  unfold CTestNetParams.construct at ht
  cases hb : CMainParams.construct E clkBase with
  | error e => simp [hb, bind, Except.bind] at ht
  | ok b =>
    refine ⟨b, rfl, ?_⟩
    rw [hb] at ht
    simp only [bind, Except.bind] at ht
    have ht2 := (assertThat_bind_ok _ _ _ _).1 ht
    obtain ⟨h1, h3⟩ := ht2
    simp only [pure, Except.pure, Except.ok.injEq] at h3
    subst h3
    simp only [beq_iff_eq] at h1
    exact ⟨rfl, rfl, rfl, rfl, rfl, rfl, h1⟩

/-- The genesis block the mainnet constructor builds does not depend on the clock. -/
theorem mainParams_genesis_clock_free (E : Externals) (c1 c2 : SeedClock)
    (m b : CMainParams) (hm : CMainParams.construct E c1 = .ok m)
    (hb : CMainParams.construct E c2 = .ok b) : m.genesis = b.genesis := by
  simp only [CMainParams.construct, assertThat_bind_ok] at hm hb
  obtain ⟨-, -, h3⟩ := hm
  obtain ⟨-, -, k3⟩ := hb
  simp only [pure, Except.pure, Except.ok.injEq] at h3 k3
  subst h3
  subst k3
  rfl

/-- The seed loop appends one address per remaining entry, stamped with the clock
and the draw of its iteration. -/
theorem convertSeed6Loop_eq (clk : SeedClock) (data : List SeedSpec6) :
    ∀ (i : Nat) (vSeedsOut : List CAddress),
      convertSeed6Loop clk i data vSeedsOut
        = vSeedsOut ++ (data.enumFrom i).map (fun p =>
            ({ svc := { ip := p.2.addr, port := p.2.port },
               nTime := clk.GetTime p.1 - clk.GetRand p.1 nOneWeek - nOneWeek } : CAddress)) := by
  induction data with
  | nil => intro i out; simp [convertSeed6Loop]
  | cons d rest ih =>
    intro i out
    simp [convertSeed6Loop, ih, List.enumFrom, List.append_assoc]

/-- Claim C6, as amended.  For every clock and every draw `r` of `GetRand(nOneWeek)`
with `0 <= r < nOneWeek`, `convertSeed6` appends exactly one address per seed
entry, and the address made in iteration `i` has `nTime` strictly greater than
`now - 2 weeks` and at most `now - 1 week`, `now` being the time read in that
iteration. -/
theorem convertSeed6_nTime_bounds (clk : SeedClock) (vSeedsOut : List CAddress)
    (data : List SeedSpec6)
    (hr : ∀ i, 0 ≤ clk.GetRand i nOneWeek ∧ clk.GetRand i nOneWeek < nOneWeek) :
    (convertSeed6 clk vSeedsOut data).length = vSeedsOut.length + data.length
      ∧ ∀ i, i < data.length →
          ∃ a, (convertSeed6 clk vSeedsOut data)[vSeedsOut.length + i]? = some a
            ∧ clk.GetTime i - 2 * 604800 < a.nTime ∧ a.nTime ≤ clk.GetTime i - 604800 := by
  refine ⟨by simp [convertSeed6, convertSeed6Loop_eq], ?_⟩
  intro i hi
  have h := hr i
  simp only [nOneWeek] at h
  refine ⟨{ svc := { ip := data[i].addr, port := data[i].port },
            nTime := clk.GetTime i - clk.GetRand i nOneWeek - nOneWeek }, ?_, ?_, ?_⟩
  · simp only [convertSeed6, convertSeed6Loop_eq]
    rw [List.getElem?_append_right (Nat.le_add_right _ _)]
    simp only [Nat.add_sub_cancel_left, List.getElem?_map, List.getElem?_enumFrom,
      List.getElem?_eq_getElem hi, Option.map_some', Nat.zero_add]
  · simp only [nOneWeek]; omega
  · simp only [nOneWeek]; omega

/-- Every draw of the sample clock is a value `GetRand(nOneWeek)` can return. -/
theorem sampleClock_draw_in_range (i : Nat) :
    0 ≤ sampleClock.GetRand i nOneWeek ∧ sampleClock.GetRand i nOneWeek < nOneWeek :=
  ⟨le_refl _, show (0 : Int) < nOneWeek by decide⟩

/-- Witness for C6 as amended: the sample clock on one seed entry. -/
theorem convertSeed6_nTime_bounds_witness :
    (∀ i, 0 ≤ sampleClock.GetRand i nOneWeek ∧ sampleClock.GetRand i nOneWeek < nOneWeek)
      ∧ (convertSeed6 sampleClock [] [{ addr := [], port := 13546 }]).length = 0 + 1
      ∧ ∀ i, i < 1 →
          ∃ a, (convertSeed6 sampleClock [] [{ addr := [], port := 13546 }])[0 + i]? = some a
            ∧ sampleClock.GetTime i - 2 * 604800 < a.nTime
            ∧ a.nTime ≤ sampleClock.GetTime i - 604800 :=
  ⟨sampleClock_draw_in_range,
   convertSeed6_nTime_bounds sampleClock [] [{ addr := [], port := 13546 }]
     sampleClock_draw_in_range⟩

/-- Counterexample to C6 as stated: with the draw `r = 0`, which `GetRand(nOneWeek)`
may return, the address gets `nTime = now - 1 week`, which is not strictly less
than `now - 1 week`. -/
theorem convertSeed6_upper_bound_not_strict :
    (0 ≤ sampleClock.GetRand 0 nOneWeek ∧ sampleClock.GetRand 0 nOneWeek < nOneWeek)
      ∧ ∃ a, (convertSeed6 sampleClock [] [{ addr := [], port := 13546 }])[0]? = some a
          ∧ a.nTime = sampleClock.GetTime 0 - 604800
          ∧ ¬ (a.nTime < sampleClock.GetTime 0 - 604800) := by
  refine ⟨sampleClock_draw_in_range 0, _, rfl, by decide, by decide⟩

/-- Claim C7.  `SelectParams(MAIN)` succeeds and makes `Params()` the mainnet object,
whose `NetworkID()` is `MAIN`; `SelectParams(TESTNET)` succeeds and makes
`Params()` the testnet object, whose `NetworkID()` is `TESTNET`; for every
other network value `SelectParams` fails with the assertion message
`Unimplemented network` and leaves the statics, hence the active profile,
unchanged. -/
theorem SelectParams_spec (g : ChainGlobals) :
    ((SelectParams g .MAIN).1 = .ok ()
        ∧ Params (SelectParams g .MAIN).2 = .ofMain g.mainParams
        ∧ (Params (SelectParams g .MAIN).2).NetworkID = .MAIN)
      ∧ ((SelectParams g .TESTNET).1 = .ok ()
        ∧ Params (SelectParams g .TESTNET).2 = .ofTestNet g.testNetParams
        ∧ (Params (SelectParams g .TESTNET).2).NetworkID = .TESTNET)
      ∧ ∀ v, (SelectParams g (.other v)).1 = .error "Unimplemented network"
        ∧ (SelectParams g (.other v)).2 = g
        ∧ Params (SelectParams g (.other v)).2 = Params g := by
  refine ⟨⟨rfl, rfl, rfl⟩, ⟨rfl, rfl, rfl⟩, fun v => ⟨rfl, rfl, rfl⟩⟩

/-- Claim C8.  Whenever the constructors complete, the mainnet object has magic bytes
61 32 70 3a, default port 13546, RPC port 13547, genesis time 1520366800,
genesis nonce 53683 and prefixes pubkey 34, script 62, secret 83, ext-public
1f 46 20 9f, ext-secret 1f 88 95 bf; the testnet object, built on top of the
mainnet constructor, has magic bytes 05 6c 9c 70, ports 23536 and 23537,
genesis nonce 13731 and prefixes pubkey 32, script 63, secret 145, ext-public
82 3a a0 03, ext-secret 82 3a 06 97. -/
theorem profile_constants (E : Externals) (clkMain clkBase clkTest : SeedClock)
    (m : CMainParams) (t : CTestNetParams)
    (hm : CMainParams.construct E clkMain = .ok m)
    (ht : CTestNetParams.construct E clkBase clkTest = .ok t) :
    (m.pchMessageStart = [0x61, 0x32, 0x70, 0x3a]
        ∧ m.nDefaultPort = 13546 ∧ m.nRPCPort = 13547
        ∧ m.genesis.nTime = 1520366800 ∧ m.genesis.nNonce = 53683
        ∧ m.base58Prefixes .PUBKEY_ADDRESS = [34]
        ∧ m.base58Prefixes .SCRIPT_ADDRESS = [62]
        ∧ m.base58Prefixes .SECRET_KEY = [83]
        ∧ m.base58Prefixes .EXT_PUBLIC_KEY = [0x1f, 0x46, 0x20, 0x9f]
        ∧ m.base58Prefixes .EXT_SECRET_KEY = [0x1f, 0x88, 0x95, 0xbf])
      ∧ (t.pchMessageStart = [0x05, 0x6c, 0x9c, 0x70]
        ∧ t.nDefaultPort = 23536 ∧ t.nRPCPort = 23537
        ∧ t.genesis.nNonce = 13731
        ∧ t.base58Prefixes .PUBKEY_ADDRESS = [32]
        ∧ t.base58Prefixes .SCRIPT_ADDRESS = [63]
        ∧ t.base58Prefixes .SECRET_KEY = [145]
        ∧ t.base58Prefixes .EXT_PUBLIC_KEY = [0x82, 0x3a, 0xa0, 0x03]
        ∧ t.base58Prefixes .EXT_SECRET_KEY = [0x82, 0x3a, 0x06, 0x97]) := by
  obtain ⟨m1, m2, m3, -, m5, -, -, m8, -, m10, -, -⟩ := mainParams_construct_ok E clkMain m hm
  obtain ⟨b, hb, t1, t2, t3, t4, -, t6, -⟩ := testNetParams_construct_ok E clkBase clkTest t ht
  obtain ⟨b1, -, -, -, b5, -⟩ := mainParams_construct_ok E clkBase b hb
  refine ⟨⟨m1, m2, m3, m8, m10, ?_, ?_, ?_, ?_, ?_⟩, ⟨?_, t3, t4, ?_, ?_, ?_, ?_, ?_, ?_⟩⟩
  · rw [m5]; rfl
  · rw [m5]; rfl
  · rw [m5]; rfl
  · rw [m5]; rfl
  · rw [m5]; rfl
  · rw [t2, b1]; rfl
  · rw [t1]
  · rw [t6]; rfl
  · rw [t6]; rfl
  · rw [t6]; rfl
  · rw [t6]; rfl
  · rw [t6]; rfl

/-- Witness for C8: both constructors complete in the sample environment. -/
theorem profile_constants_witness :
    (sampleMainParams.pchMessageStart = [0x61, 0x32, 0x70, 0x3a]
        ∧ sampleMainParams.nDefaultPort = 13546 ∧ sampleMainParams.nRPCPort = 13547
        ∧ sampleMainParams.genesis.nTime = 1520366800 ∧ sampleMainParams.genesis.nNonce = 53683
        ∧ sampleMainParams.base58Prefixes .PUBKEY_ADDRESS = [34]
        ∧ sampleMainParams.base58Prefixes .SCRIPT_ADDRESS = [62]
        ∧ sampleMainParams.base58Prefixes .SECRET_KEY = [83]
        ∧ sampleMainParams.base58Prefixes .EXT_PUBLIC_KEY = [0x1f, 0x46, 0x20, 0x9f]
        ∧ sampleMainParams.base58Prefixes .EXT_SECRET_KEY = [0x1f, 0x88, 0x95, 0xbf])
      ∧ (sampleTestNetParams.pchMessageStart = [0x05, 0x6c, 0x9c, 0x70]
        ∧ sampleTestNetParams.nDefaultPort = 23536 ∧ sampleTestNetParams.nRPCPort = 23537
        ∧ sampleTestNetParams.genesis.nNonce = 13731
        ∧ sampleTestNetParams.base58Prefixes .PUBKEY_ADDRESS = [32]
        ∧ sampleTestNetParams.base58Prefixes .SCRIPT_ADDRESS = [63]
        ∧ sampleTestNetParams.base58Prefixes .SECRET_KEY = [145]
        ∧ sampleTestNetParams.base58Prefixes .EXT_PUBLIC_KEY = [0x82, 0x3a, 0xa0, 0x03]
        ∧ sampleTestNetParams.base58Prefixes .EXT_SECRET_KEY = [0x82, 0x3a, 0x06, 0x97]) :=
  profile_constants sampleExternals sampleClock sampleClock sampleClock
    sampleMainParams sampleTestNetParams sample_main_ok sample_test_ok

/-- Claim C10.  Whenever the constructors complete, the testnet genesis block has the
transaction list, `hashMerkleRoot`, `hashPrevBlock`, `nVersion` and `nTime`
(1520366800) of the mainnet genesis block, and differs from it only in `nBits`,
recomputed from the testnet proof-of-work limit, and `nNonce`, set to 13731. -/
theorem testnet_genesis_reuses_mainnet (E : Externals) (clkMain clkBase clkTest : SeedClock)
    (m : CMainParams) (t : CTestNetParams)
    (hm : CMainParams.construct E clkMain = .ok m)
    (ht : CTestNetParams.construct E clkBase clkTest = .ok t) :
    t.genesis.vtx = m.genesis.vtx
      ∧ t.genesis.hashMerkleRoot = m.genesis.hashMerkleRoot
      ∧ t.genesis.hashPrevBlock = m.genesis.hashPrevBlock
      ∧ t.genesis.nVersion = m.genesis.nVersion
      ∧ t.genesis.nTime = m.genesis.nTime ∧ t.genesis.nTime = 1520366800
      ∧ t.genesis.nBits = E.GetCompact t.bnProofOfWorkLimit
      ∧ t.bnProofOfWorkLimit = uint256_max >>> 14
      ∧ t.genesis.nNonce = 13731
      ∧ t.genesis = { m.genesis with nBits := E.GetCompact (uint256_max >>> 14),
                                     nNonce := 13731 } := by
  obtain ⟨-, -, -, -, -, -, -, m8, -⟩ := mainParams_construct_ok E clkMain m hm
  obtain ⟨b, hb, t1, -, -, -, t5, -⟩ := testNetParams_construct_ok E clkBase clkTest t ht
  have hg : m.genesis = b.genesis := mainParams_genesis_clock_free E clkMain clkBase m b hm hb
  rw [← hg] at t1
  rw [t1, t5]
  exact ⟨rfl, rfl, rfl, rfl, rfl, m8, rfl, rfl, rfl, rfl⟩

/-- Witness for C10: both constructors complete in the sample environment. -/
theorem testnet_genesis_reuses_mainnet_witness :
    sampleTestNetParams.genesis.vtx = sampleMainParams.genesis.vtx
      ∧ sampleTestNetParams.genesis.hashMerkleRoot = sampleMainParams.genesis.hashMerkleRoot
      ∧ sampleTestNetParams.genesis.hashPrevBlock = sampleMainParams.genesis.hashPrevBlock
      ∧ sampleTestNetParams.genesis.nVersion = sampleMainParams.genesis.nVersion
      ∧ sampleTestNetParams.genesis.nTime = sampleMainParams.genesis.nTime
      ∧ sampleTestNetParams.genesis.nTime = 1520366800
      ∧ sampleTestNetParams.genesis.nBits
          = sampleExternals.GetCompact sampleTestNetParams.bnProofOfWorkLimit
      ∧ sampleTestNetParams.bnProofOfWorkLimit = uint256_max >>> 14
      ∧ sampleTestNetParams.genesis.nNonce = 13731
      ∧ sampleTestNetParams.genesis
          = { sampleMainParams.genesis with
                nBits := sampleExternals.GetCompact (uint256_max >>> 14), nNonce := 13731 } :=
  testnet_genesis_reuses_mainnet sampleExternals sampleClock sampleClock sampleClock
    sampleMainParams sampleTestNetParams sample_main_ok sample_test_ok

/-! ### The added-node list -/

theorem findAdded_le (L : List String) (x : String) : findAdded L x ≤ L.length := by
  induction L with
  | nil => simp [findAdded]
  | cons s rest ih =>
    simp only [findAdded]
    split <;> simp [ih]

/-- The search loop stops at `end()` exactly when the address is not in the list. -/
theorem findAdded_eq_length_iff (L : List String) (x : String) :
    findAdded L x = L.length ↔ x ∉ L := by
  induction L with
  | nil => simp [findAdded]
  | cons s rest ih =>
    simp only [findAdded, List.length_cons, List.mem_cons, not_or]
    by_cases h : x = s
    · simp [h]
    · simp [h, ih]

/-- On a list that does not hold `x`, the search in the list extended by `x` stops
at the new last entry. -/
theorem findAdded_append_self (L : List String) (x : String) (h : x ∉ L) :
    findAdded (L ++ [x]) x = L.length := by
  induction L with
  | nil => simp [findAdded]
  | cons s rest ih =>
    simp only [List.mem_cons, not_or] at h
    simp [findAdded, h.1, ih h.2]

theorem eraseIdx_append_last (L : List String) (x : String) :
    (L ++ [x]).eraseIdx L.length = L := by
  induction L with
  | nil => simp
  | cons s rest ih => simp [ih]

/-- The call `addnode(x, "add")` in terms of the list. -/
theorem addnode_add_eq (g : NetGlobals) (x : String) :
    addnode g [.str x, .str "add"] false
      = if x ∈ g.vAddedNodes then
          (.error (.JSONRPCError .RPC_CLIENT_NODE_ALREADY_ADDED "Error: Node already added"), g)
        else (.ok .null, { g with vAddedNodes := g.vAddedNodes ++ [x] }) := by
  by_cases h : x ∈ g.vAddedNodes
  · have h2 : findAdded g.vAddedNodes x ≠ g.vAddedNodes.length := by
      rw [Ne, findAdded_eq_length_iff]; simpa using h
    simp [addnode, Value.get_str, h, h2]
  · have h2 : findAdded g.vAddedNodes x = g.vAddedNodes.length :=
      (findAdded_eq_length_iff _ _).2 h
    simp [addnode, Value.get_str, h, h2]

/-- The call `addnode(y, "remove")` in terms of the list. -/
theorem addnode_remove_eq (g : NetGlobals) (y : String) :
    addnode g [.str y, .str "remove"] false
      = if y ∈ g.vAddedNodes then
          (.ok .null, { g with vAddedNodes :=
            g.vAddedNodes.eraseIdx (findAdded g.vAddedNodes y) })
        else
          (.error (.JSONRPCError .RPC_CLIENT_NODE_NOT_ADDED "Error: Node has not been added."),
            g) := by
  by_cases h : y ∈ g.vAddedNodes
  · have h2 : findAdded g.vAddedNodes y ≠ g.vAddedNodes.length := by
      rw [Ne, findAdded_eq_length_iff]; simpa using h
    simp [addnode, Value.get_str, h, h2]
  · have h2 : findAdded g.vAddedNodes y = g.vAddedNodes.length :=
      (findAdded_eq_length_iff _ _).2 h
    simp [addnode, Value.get_str, h, h2]

/-- Claim C1.  For every added-node list and every address `x` in it,
`addnode(x, "add")` fails with `RPC_CLIENT_NODE_ALREADY_ADDED` (Node already
added) and leaves the state unchanged; and when `x` is not in the list, a first
`addnode(x, "add")` succeeds and a second one right after it fails with that
error, leaving the state of the first call. -/
theorem addnode_add_twice (g : NetGlobals) (x : String) :
    (x ∈ g.vAddedNodes →
        addnode g [.str x, .str "add"] false
          = (.error (.JSONRPCError .RPC_CLIENT_NODE_ALREADY_ADDED "Error: Node already added"),
              g))
      ∧ (x ∉ g.vAddedNodes →
        (addnode g [.str x, .str "add"] false).1 = .ok .null
          ∧ (addnode g [.str x, .str "add"] false).2.vAddedNodes = g.vAddedNodes ++ [x]
          ∧ addnode (addnode g [.str x, .str "add"] false).2 [.str x, .str "add"] false
              = (.error
                  (.JSONRPCError .RPC_CLIENT_NODE_ALREADY_ADDED "Error: Node already added"),
                (addnode g [.str x, .str "add"] false).2)) := by
  constructor
  · intro h
    rw [addnode_add_eq, if_pos h]
  · intro h
    rw [addnode_add_eq g x, if_neg h]
    refine ⟨rfl, rfl, ?_⟩
    rw [addnode_add_eq, if_pos (by simp)]

/-- Witness for C1: `10.0.0.1` is in the sample list and `10.0.0.9` is not. -/
theorem addnode_add_twice_witness :
    ("10.0.0.1" ∈ sampleNet.vAddedNodes
        ∧ addnode sampleNet [.str "10.0.0.1", .str "add"] false
          = (.error (.JSONRPCError .RPC_CLIENT_NODE_ALREADY_ADDED "Error: Node already added"),
              sampleNet))
      ∧ ("10.0.0.9" ∉ sampleNet.vAddedNodes
        ∧ (addnode sampleNet [.str "10.0.0.9", .str "add"] false).1 = .ok .null
        ∧ (addnode sampleNet [.str "10.0.0.9", .str "add"] false).2.vAddedNodes
            = sampleNet.vAddedNodes ++ ["10.0.0.9"]
        ∧ addnode (addnode sampleNet [.str "10.0.0.9", .str "add"] false).2
              [.str "10.0.0.9", .str "add"] false
            = (.error
                (.JSONRPCError .RPC_CLIENT_NODE_ALREADY_ADDED "Error: Node already added"),
              (addnode sampleNet [.str "10.0.0.9", .str "add"] false).2)) :=
  ⟨⟨by decide, (addnode_add_twice sampleNet "10.0.0.1").1 (by decide)⟩,
   ⟨by decide, (addnode_add_twice sampleNet "10.0.0.9").2 (by decide)⟩⟩

/-- Claim C2.  For every added-node list and every address `y` not in it,
`addnode(y, "remove")` fails with `RPC_CLIENT_NODE_NOT_ADDED` (Node has not
been added) and leaves the state unchanged; and for every `y` in the list the
call does not fail. -/
theorem addnode_remove_absent (g : NetGlobals) (y : String) :
    (y ∉ g.vAddedNodes →
        addnode g [.str y, .str "remove"] false
          = (.error
              (.JSONRPCError .RPC_CLIENT_NODE_NOT_ADDED "Error: Node has not been added."), g))
      ∧ (y ∈ g.vAddedNodes → (addnode g [.str y, .str "remove"] false).1 = .ok .null) := by
  constructor
  · intro h
    rw [addnode_remove_eq, if_neg h]
  · intro h
    rw [addnode_remove_eq, if_pos h]

/-- Witness for C2: `10.0.0.9` is not in the sample list and `10.0.0.2` is. -/
theorem addnode_remove_absent_witness :
    ("10.0.0.9" ∉ sampleNet.vAddedNodes
        ∧ addnode sampleNet [.str "10.0.0.9", .str "remove"] false
          = (.error
              (.JSONRPCError .RPC_CLIENT_NODE_NOT_ADDED "Error: Node has not been added."),
              sampleNet))
      ∧ ("10.0.0.2" ∈ sampleNet.vAddedNodes
        ∧ (addnode sampleNet [.str "10.0.0.2", .str "remove"] false).1 = .ok .null) :=
  ⟨⟨by decide, (addnode_remove_absent sampleNet "10.0.0.9").1 (by decide)⟩,
   ⟨by decide, (addnode_remove_absent sampleNet "10.0.0.2").2 (by decide)⟩⟩

/-- Claim C3.  For every duplicate-free added-node list and every address `z` not in
it, `addnode(z, "add")` followed by `addnode(z, "remove")` both succeed, the
state after them is the state before, and `getaddednodeinfo(false)` then
returns the object with one `addednode` pair per entry of the list, none of
which is `z`. -/
theorem addnode_add_remove_roundtrip (X : NetExternals) (c : ChainGlobals) (g : NetGlobals)
    (z : String) (_hnodup : g.vAddedNodes.Nodup) (hz : z ∉ g.vAddedNodes) :
    (addnode g [.str z, .str "add"] false).1 = .ok .null
      ∧ (addnode (addnode g [.str z, .str "add"] false).2 [.str z, .str "remove"] false).1
          = .ok .null
      ∧ (addnode (addnode g [.str z, .str "add"] false).2 [.str z, .str "remove"] false).2 = g
      ∧ (getaddednodeinfo X c
            (addnode (addnode g [.str z, .str "add"] false).2 [.str z, .str "remove"] false).2
            [.bool false] false).1
          = .ok (.obj (g.vAddedNodes.map (fun s => ("addednode", Value.str s))))
      ∧ ("addednode", Value.str z) ∉ g.vAddedNodes.map (fun s => ("addednode", Value.str s)) := by
  have h1 : addnode g [.str z, .str "add"] false
      = (.ok .null, { g with vAddedNodes := g.vAddedNodes ++ [z] }) := by
    rw [addnode_add_eq, if_neg hz]
  have h2 : addnode { g with vAddedNodes := g.vAddedNodes ++ [z] } [.str z, .str "remove"] false
      = (.ok .null, g) := by
    rw [addnode_remove_eq, if_pos (by simp)]
    simp [findAdded_append_self _ _ hz, eraseIdx_append_last]
  rw [h1]
  simp only [h2]
  refine ⟨trivial, trivial, trivial, ?_, ?_⟩
  · simp [getaddednodeinfo, Value.get_bool]
  · simp only [List.mem_map, not_exists, not_and]
    intro s hs heq
    simp only [Prod.mk.injEq, Value.str.injEq, true_and] at heq
    exact hz (heq ▸ hs)

/-- Witness for C3: the sample list is duplicate-free and does not hold `10.0.0.9`. -/
theorem addnode_add_remove_roundtrip_witness :
    sampleNet.vAddedNodes.Nodup ∧ "10.0.0.9" ∉ sampleNet.vAddedNodes
      ∧ (addnode sampleNet [.str "10.0.0.9", .str "add"] false).1 = .ok .null
      ∧ (addnode (addnode sampleNet [.str "10.0.0.9", .str "add"] false).2
            [.str "10.0.0.9", .str "remove"] false).1 = .ok .null
      ∧ (addnode (addnode sampleNet [.str "10.0.0.9", .str "add"] false).2
            [.str "10.0.0.9", .str "remove"] false).2 = sampleNet
      ∧ (getaddednodeinfo sampleFailingResolver sampleChainGlobals
            (addnode (addnode sampleNet [.str "10.0.0.9", .str "add"] false).2
              [.str "10.0.0.9", .str "remove"] false).2
            [.bool false] false).1
          = .ok (.obj (sampleNet.vAddedNodes.map (fun s => ("addednode", Value.str s))))
      ∧ ("addednode", Value.str "10.0.0.9")
          ∉ sampleNet.vAddedNodes.map (fun s => ("addednode", Value.str s)) :=
  ⟨by decide, by decide,
   addnode_add_remove_roundtrip sampleFailingResolver sampleChainGlobals sampleNet "10.0.0.9"
     (by decide) (by decide)⟩

/-- Claim C5, evaluated on the code where it fails.  With the two added nodes of the
sample state and a resolver that resolves neither, `getaddednodeinfo(true)`
returns the empty array: the entries built for the unresolved names, among them
the one for `10.0.0.1` with `connected = false` and no addresses, are not in
the result. -/
theorem getaddednodeinfo_drops_unresolved :
    sampleNet.vAddedNodes = ["10.0.0.1", "10.0.0.2"]
      ∧ sampleFailingResolver.Lookup "10.0.0.1"
          (Params sampleChainGlobals).GetDefaultPort sampleFailingResolver.fNameLookup 0 = none
      ∧ getaddednodeinfo sampleFailingResolver sampleChainGlobals sampleNet [.bool true] false
          = (.ok (.array []), sampleNet)
      ∧ Value.obj [("addednode", .str "10.0.0.1"), ("connected", .bool false),
            ("addresses", .array [])] ∉ ([] : List Value) :=
  ⟨rfl, rfl, rfl, List.not_mem_nil _⟩

/-! ### Connection counts -/

/-- With `IN` and `OUT` non-zero masks that share no bit, the two counting loops
together count every peer once. -/
theorem countConnections_in_add_out (K : NumConnections)
    (hIn : K.CONNECTIONS_IN ≠ 0) (hOut : K.CONNECTIONS_OUT ≠ 0)
    (hDisj : K.CONNECTIONS_IN &&& K.CONNECTIONS_OUT = 0) (vNodes : List CNode) :
    ∀ n m : Nat,
      countConnections K K.CONNECTIONS_IN vNodes n + countConnections K K.CONNECTIONS_OUT vNodes m
        = n + m + vNodes.length := by
  have hDisj2 : K.CONNECTIONS_OUT &&& K.CONNECTIONS_IN = 0 := by
    rw [Nat.land_comm]; exact hDisj
  induction vNodes with
  | nil => intro n m; simp [countConnections]
  | cons p rest ih =>
    intro n m
    cases hp : p.fInbound
    · simp only [countConnections, hp, Bool.false_eq_true, if_false, hDisj, Nat.and_self,
        bne_self_eq_false, bne_iff_ne, ne_eq, hOut, not_false_eq_true, if_true, ih,
        List.length_cons]
      omega
    · simp only [countConnections, hp, if_true, hDisj2, Nat.and_self,
        bne_self_eq_false, Bool.false_eq_true, if_false, bne_iff_ne, ne_eq, hIn,
        not_false_eq_true, ih, List.length_cons]
      omega

/-- Claim C4.  With the enumerators of `NumConnections` being what the method
presupposes (`CONNECTIONS_IN` and `CONNECTIONS_OUT` non-zero masks sharing no
bit, both different from `CONNECTIONS_ALL`), for every list of live peers
`getNumConnections(CONNECTIONS_IN) + getNumConnections(CONNECTIONS_OUT)`
equals `getNumConnections(CONNECTIONS_ALL)`, which is the size of `vNodes`,
the first two being computed by the masking loop. -/
theorem getNumConnections_in_add_out (K : NumConnections) (vNodes : List CNode)
    (hIn : K.CONNECTIONS_IN ≠ 0) (hOut : K.CONNECTIONS_OUT ≠ 0)
    (hDisj : K.CONNECTIONS_IN &&& K.CONNECTIONS_OUT = 0)
    (hInAll : K.CONNECTIONS_IN ≠ K.CONNECTIONS_ALL)
    (hOutAll : K.CONNECTIONS_OUT ≠ K.CONNECTIONS_ALL) :
    getNumConnections K vNodes K.CONNECTIONS_IN + getNumConnections K vNodes K.CONNECTIONS_OUT
        = getNumConnections K vNodes K.CONNECTIONS_ALL
      ∧ getNumConnections K vNodes K.CONNECTIONS_ALL = vNodes.length
      ∧ getNumConnections K vNodes K.CONNECTIONS_IN
          = countConnections K K.CONNECTIONS_IN vNodes 0
      ∧ getNumConnections K vNodes K.CONNECTIONS_OUT
          = countConnections K K.CONNECTIONS_OUT vNodes 0 := by
  have h := countConnections_in_add_out K hIn hOut hDisj vNodes 0 0
  simp only [getNumConnections, beq_self_eq_true, if_true, beq_iff_eq, hInAll, hOutAll, if_false]
  exact ⟨by omega, trivial, trivial, trivial⟩

/-- Witness for C4: the enumerator values 1, 2, 3 and three live peers. -/
theorem getNumConnections_in_add_out_witness :
    (sampleNumConnections.CONNECTIONS_IN ≠ 0 ∧ sampleNumConnections.CONNECTIONS_OUT ≠ 0
        ∧ sampleNumConnections.CONNECTIONS_IN &&& sampleNumConnections.CONNECTIONS_OUT = 0
        ∧ sampleNumConnections.CONNECTIONS_IN ≠ sampleNumConnections.CONNECTIONS_ALL
        ∧ sampleNumConnections.CONNECTIONS_OUT ≠ sampleNumConnections.CONNECTIONS_ALL)
      ∧ (getNumConnections sampleNumConnections
            [samplePeer true, samplePeer false, samplePeer true]
            sampleNumConnections.CONNECTIONS_IN
          + getNumConnections sampleNumConnections
              [samplePeer true, samplePeer false, samplePeer true]
              sampleNumConnections.CONNECTIONS_OUT
          = getNumConnections sampleNumConnections
              [samplePeer true, samplePeer false, samplePeer true]
              sampleNumConnections.CONNECTIONS_ALL
        ∧ getNumConnections sampleNumConnections
              [samplePeer true, samplePeer false, samplePeer true]
              sampleNumConnections.CONNECTIONS_ALL
            = [samplePeer true, samplePeer false, samplePeer true].length
        ∧ getNumConnections sampleNumConnections
              [samplePeer true, samplePeer false, samplePeer true]
              sampleNumConnections.CONNECTIONS_IN
            = countConnections sampleNumConnections sampleNumConnections.CONNECTIONS_IN
                [samplePeer true, samplePeer false, samplePeer true] 0
        ∧ getNumConnections sampleNumConnections
              [samplePeer true, samplePeer false, samplePeer true]
              sampleNumConnections.CONNECTIONS_OUT
            = countConnections sampleNumConnections sampleNumConnections.CONNECTIONS_OUT
                [samplePeer true, samplePeer false, samplePeer true] 0) :=
  ⟨⟨by decide, by decide, by decide, by decide, by decide⟩,
   getNumConnections_in_add_out sampleNumConnections
     [samplePeer true, samplePeer false, samplePeer true]
     (by decide) (by decide) (by decide) (by decide) (by decide)⟩

/-! ### Checkpoints and upgrade heights -/

/-- In a table without an entry at the height, the lookup finds nothing. -/
theorem checkpoint_lookup_none (table : List (Int × Nat)) (h : Int)
    (hno : ∀ C, (h, C) ∉ table) : table.find? (fun cp => cp.1 == h) = none := by
  rw [List.find?_eq_none]
  intro cp hcp hh
  simp only [beq_iff_eq] at hh
  exact hno cp.2 (by rw [← hh]; exact hcp)

/-- In a table with strictly increasing heights, the lookup at the height of an
entry finds that entry. -/
theorem checkpoint_lookup_some (table : List (Int × Nat)) (h : Int) (C : Nat)
    (hord : checkpointsOrdered table) (hin : (h, C) ∈ table) :
    table.find? (fun cp => cp.1 == h) = some (h, C) := by
  induction table with
  | nil => simp at hin
  | cons x rest ih =>
    unfold checkpointsOrdered at hord
    rw [List.pairwise_cons] at hord
    rcases List.mem_cons.1 hin with hx | hr
    · subst hx
      simp
    · have hlt : x.1 < h := hord.1 (h, C) hr
      have hne : ¬ x.1 = h := ne_of_lt hlt
      have hb : (x.1 == h) = false := by simp [hne]
      rw [List.find?_cons, hb]
      exact ih hord.2 hr

/-- Claim C11.  For every bundled table with strictly increasing heights, every
height `h` and every hash `H`: `CheckHardened(h, H)` is true when the table has
no entry at `h`, and when the table has an entry `(h, C)` it is true if and
only if `H = C`. -/
theorem CheckHardened_spec (table : List (Int × Nat)) (h : Int) (H : Nat)
    (hord : checkpointsOrdered table) :
    ((∀ C, (h, C) ∉ table) → CheckHardened table h H = true)
      ∧ ∀ C, (h, C) ∈ table → (CheckHardened table h H = true ↔ H = C) := by
  constructor
  · intro hno
    simp [CheckHardened, checkpoint_lookup_none table h hno]
  · intro C hin
    simp [CheckHardened, checkpoint_lookup_some table h C hord hin]

/-- Witness for C11: the sample table is ordered; at height 500, where it has no
entry, every hash passes; at height 1000, where its entry is `0xabc`, the
hash `0xabc` passes and the hash 5 passes only if it were `0xabc`. -/
theorem CheckHardened_spec_witness :
    checkpointsOrdered sampleCheckpoints
      ∧ CheckHardened sampleCheckpoints 500 7 = true
      ∧ (CheckHardened sampleCheckpoints 1000 0xabc = true ↔ 0xabc = 0xabc)
      ∧ (CheckHardened sampleCheckpoints 1000 5 = true ↔ 5 = 0xabc) :=
  have hord : checkpointsOrdered sampleCheckpoints := by
    simp [checkpointsOrdered, sampleCheckpoints]
  ⟨hord,
   (CheckHardened_spec sampleCheckpoints 500 7 hord).1 (by simp [sampleCheckpoints]),
   (CheckHardened_spec sampleCheckpoints 1000 0xabc hord).2 0xabc (by decide),
   (CheckHardened_spec sampleCheckpoints 1000 5 hord).2 0xabc (by decide)⟩

/-- Claim C12.  The activation height of System Upgrade 01 is `nUpgrade_01 = 472178`,
and the activation predicate at that height is false for every height below
472178 and true for 472178 and for every greater height. -/
theorem upgrade_01_activation (height : Int) :
    nUpgrade_01 = 472178
      ∧ (IsActive nUpgrade_01 height = false ↔ height < 472178)
      ∧ (IsActive nUpgrade_01 height = true ↔ 472178 ≤ height)
      ∧ IsActive nUpgrade_01 472178 = true := by
  refine ⟨rfl, ?_, ?_, ?_⟩
  · simp [IsActive, nUpgrade_01]
  · simp [IsActive, nUpgrade_01]
  · simp [IsActive, nUpgrade_01]

/-! ### One-try dials and the added-node report -/

/-- Claim C13.  For every peer state and every address `s`, in the added-node list or
not, `addnode(s, "onetry")` returns null without an error, leaves the
added-node list unchanged and calls `ConnectNode` exactly once, for `s`; and the
returned value is the same whatever the dial answers. -/
theorem addnode_onetry (g : NetGlobals) (s : String) :
    (addnode g [.str s, .str "onetry"] false).1 = .ok .null
      ∧ (addnode g [.str s, .str "onetry"] false).2.vAddedNodes = g.vAddedNodes
      ∧ (addnode g [.str s, .str "onetry"] false).2.connectCalls = g.connectCalls ++ [s]
      ∧ ∀ d : List CNode → String → Option CNode × List CNode,
          (addnode { g with dial := d } [.str s, .str "onetry"] false).1 = .ok .null
            ∧ (addnode { g with dial := d } [.str s, .str "onetry"] false).2.vAddedNodes
                = g.vAddedNodes := by
  refine ⟨?_, ?_, ?_, fun d => ⟨?_, ?_⟩⟩ <;> simp [addnode, ConnectNode, Value.get_str]

/-- Claim C14.  For every added-node list, `getaddednodeinfo(false)` with no node
named returns the object made of exactly one `addednode` pair per entry of the
list, in list order, and nothing else: the object has as many pairs as the list
has entries, each with the key `addednode`, and it is the same for every
resolver and every list of live peers; the state is unchanged. -/
theorem getaddednodeinfo_without_dns (X : NetExternals) (c : ChainGlobals) (g : NetGlobals) :
    getaddednodeinfo X c g [.bool false] false
        = (.ok (.obj (g.vAddedNodes.map (fun s => ("addednode", Value.str s)))), g)
      ∧ (g.vAddedNodes.map (fun s => ("addednode", Value.str s))).length = g.vAddedNodes.length
      ∧ (g.vAddedNodes.map (fun s => ("addednode", Value.str s))).map Prod.fst
          = List.replicate g.vAddedNodes.length "addednode"
      ∧ (∀ (X2 : NetExternals) (vNodes2 : List CNode),
          (getaddednodeinfo X2 c { g with vNodes := vNodes2 } [.bool false] false).1
            = (getaddednodeinfo X c g [.bool false] false).1) := by
  have h : ∀ (Y : NetExternals) (k : NetGlobals), getaddednodeinfo Y c k [.bool false] false
      = (.ok (.obj (k.vAddedNodes.map (fun s => ("addednode", Value.str s)))), k) := by
    intro Y k
    simp [getaddednodeinfo, Value.get_bool]
  refine ⟨h X g, List.length_map _ _, ?_, ?_⟩
  · rw [List.map_map]
    exact List.eq_replicate_iff.2 ⟨by simp, by simp⟩
  · intro X2 vNodes2
    rw [h X2, h X g]

/-- The selection loop keeps the named node alone when it is in the list and nothing
otherwise. -/
theorem selectNamed_eq (L : List String) (n : String) :
    selectNamed L n = if n ∈ L then [n] else [] := by
  induction L with
  | nil => simp [selectNamed]
  | cons a rest ih =>
    simp only [selectNamed, beq_iff_eq, List.mem_cons]
    by_cases h : a = n
    · subst h
      simp
    · have h2 : ¬ n = a := fun e => h e.symm
      simp only [h, h2, if_false, false_or]
      exact ih

/-- Claim C15.  For every added-node list, flag and node name `n`,
`getaddednodeinfo(flag, n)` fails with `RPC_CLIENT_NODE_NOT_ADDED` (Node has
not been added) if and only if `n` is not in the list; and when `n` is in the
list the nodes selected for the report are the single address `n`: the call
returns what the call without a node name returns on the list `[n]`. -/
theorem getaddednodeinfo_named (X : NetExternals) (c : ChainGlobals) (g : NetGlobals)
    (flag : Bool) (n : String) :
    ((getaddednodeinfo X c g [.bool flag, .str n] false).1
          = .error (.JSONRPCError .RPC_CLIENT_NODE_NOT_ADDED "Error: Node has not been added.")
        ↔ n ∉ g.vAddedNodes)
      ∧ (n ∈ g.vAddedNodes →
          selectNamed g.vAddedNodes n = [n]
            ∧ (getaddednodeinfo X c g [.bool flag, .str n] false).1
                = (getaddednodeinfo X c { g with vAddedNodes := [n] } [.bool flag] false).1
            ∧ (getaddednodeinfo X c g [.bool flag, .str n] false).2 = g) := by
  by_cases h : n ∈ g.vAddedNodes
  · refine ⟨?_, fun _ => ⟨by simp [selectNamed_eq, h], ?_, ?_⟩⟩
    · cases flag <;>
        simp [getaddednodeinfo, Value.get_bool, Value.get_str, selectNamed_eq, h]
    · cases flag <;>
        simp [getaddednodeinfo, Value.get_bool, Value.get_str, selectNamed_eq, h]
    · cases flag <;>
        simp [getaddednodeinfo, Value.get_bool, Value.get_str, selectNamed_eq, h]
  · refine ⟨?_, fun hin => absurd hin h⟩
    simp [getaddednodeinfo, Value.get_bool, Value.get_str, selectNamed_eq, h]

/-- Witness for C15: `10.0.0.2` is in the sample list. -/
theorem getaddednodeinfo_named_witness :
    ((getaddednodeinfo sampleFailingResolver sampleChainGlobals sampleNet
            [.bool false, .str "10.0.0.2"] false).1
          = .error (.JSONRPCError .RPC_CLIENT_NODE_NOT_ADDED "Error: Node has not been added.")
        ↔ "10.0.0.2" ∉ sampleNet.vAddedNodes)
      ∧ "10.0.0.2" ∈ sampleNet.vAddedNodes
      ∧ selectNamed sampleNet.vAddedNodes "10.0.0.2" = ["10.0.0.2"]
      ∧ (getaddednodeinfo sampleFailingResolver sampleChainGlobals sampleNet
            [.bool false, .str "10.0.0.2"] false).1
          = (getaddednodeinfo sampleFailingResolver sampleChainGlobals
              { sampleNet with vAddedNodes := ["10.0.0.2"] } [.bool false] false).1
      ∧ (getaddednodeinfo sampleFailingResolver sampleChainGlobals sampleNet
            [.bool false, .str "10.0.0.2"] false).2 = sampleNet :=
  ⟨(getaddednodeinfo_named sampleFailingResolver sampleChainGlobals sampleNet false
      "10.0.0.2").1,
   by decide,
   (getaddednodeinfo_named sampleFailingResolver sampleChainGlobals sampleNet false
      "10.0.0.2").2 (by decide)⟩

/-- The resolution loop queues the names that resolve, in order, behind what was
queued before. -/
theorem resolveAdded_eq (X : NetExternals) (portDefault : Nat) (names : List String) :
    ∀ acc, resolveAdded X portDefault names acc = acc ++ resolvedSpec X portDefault names := by
  induction names with
  | nil => intro acc; simp [resolveAdded, resolvedSpec]
  | cons s rest ih =>
    intro acc
    cases hl : X.Lookup s portDefault X.fNameLookup 0 with
    | none =>
      simp only [resolveAdded, hl, ih]
      simp [resolvedSpec, hl]
    | some v =>
      simp only [resolveAdded, hl, ih]
      simp [resolvedSpec, hl]

/-- The search of the live peers finds one exactly when some live peer has the
address. -/
theorem find_peer_isSome (vNodes : List CNode) (a : CService) :
    (vNodes.find? (fun pnode => pnode.addr.svc == a)).isSome
      = vNodes.any (fun pnode => pnode.addr.svc == a) := by
  induction vNodes with
  | nil => rfl
  | cons p rest ih =>
    cases hp : (p.addr.svc == a) <;> simp [List.find?_cons, hp, ih]

/-- The loop over the resolved addresses appends the record of each address, and
raises the flag when one of them is the address of a live peer. -/
theorem scanAddresses_eq (X : NetExternals) (vNodes : List CNode) (vservNode : List CService) :
    ∀ (addresses : List Value) (fConnected : Bool),
      scanAddresses X vNodes vservNode addresses fConnected
        = (addresses ++ vservNode.map (addressRecordSpec X vNodes),
           fConnected
             || vservNode.any (fun a => vNodes.any (fun pnode => pnode.addr.svc == a))) := by
  induction vservNode with
  | nil => intro addresses fConnected; simp [scanAddresses]
  | cons a rest ih =>
    intro addresses fConnected
    have hs := find_peer_isSome vNodes a
    cases hf : vNodes.find? (fun pnode => pnode.addr.svc == a) with
    | none =>
      rw [hf] at hs
      simp only [Option.isSome_none] at hs
      simp only [scanAddresses, hf, ih, List.map_cons, List.any_cons, ← hs, Bool.false_or,
        addressRecordSpec, List.append_assoc, List.singleton_append, List.cons_append,
        List.nil_append]
    | some p =>
      rw [hf] at hs
      simp only [Option.isSome_some] at hs
      simp only [scanAddresses, hf, ih, List.map_cons, List.any_cons, ← hs, Bool.true_or,
        Bool.or_true, addressRecordSpec, List.append_assoc, List.singleton_append,
        List.cons_append, List.nil_append]

/-- The final loop appends the entry of each resolved node. -/
theorem reportAdded_eq (X : NetExternals) (vNodes : List CNode)
    (l : List (String × List CService)) :
    ∀ ret, reportAdded X vNodes l ret
      = ret ++ l.map (fun e => addedEntrySpec X vNodes e.1 e.2) := by
  induction l with
  | nil => intro ret; simp [reportAdded]
  | cons e rest ih =>
    intro ret
    simp [reportAdded, scanAddresses_eq, ih, addedEntrySpec]

/-- Claim C16.  With `resolve = true`, `getaddednodeinfo` returns, for the added
nodes that resolve and in their order, one entry each: the entry lists one
record per resolved address in resolution order; the `connected` field of a
record is `inbound` or `outbound` after the inbound flag of the first live peer
with that address and `false` when no live peer has it; and the `connected`
flag of the entry is true exactly when some resolved address is that of a live
peer.  Every added node that resolves has its entry in the result. -/
theorem getaddednodeinfo_with_dns (X : NetExternals) (c : ChainGlobals) (g : NetGlobals) :
    getaddednodeinfo X c g [.bool true] false
        = (.ok (.array ((resolvedSpec X (Params c).GetDefaultPort g.vAddedNodes).map
            (fun e => addedEntrySpec X g.vNodes e.1 e.2))), g)
      ∧ ∀ s v, s ∈ g.vAddedNodes →
          X.Lookup s (Params c).GetDefaultPort X.fNameLookup 0 = some v →
          addedEntrySpec X g.vNodes s v
            ∈ (resolvedSpec X (Params c).GetDefaultPort g.vAddedNodes).map
                (fun e => addedEntrySpec X g.vNodes e.1 e.2) := by
  constructor
  · simp [getaddednodeinfo, Value.get_bool, resolveAdded_eq, reportAdded_eq]
  · intro s v hs hl
    refine List.mem_map.2 ⟨(s, v), ?_, rfl⟩
    simp only [resolvedSpec, List.mem_filterMap]
    exact ⟨s, hs, by simp [hl]⟩

/-- Witness for C16: the sample resolver resolves `10.0.0.1` to the address of the
live inbound peer of the sample state. -/
theorem getaddednodeinfo_with_dns_witness :
    "10.0.0.1" ∈ sampleNetLive.vAddedNodes
      ∧ sampleResolver.Lookup "10.0.0.1" (Params sampleChainGlobals).GetDefaultPort
          sampleResolver.fNameLookup 0 = some [{ ip := [], port := 13546 }]
      ∧ addedEntrySpec sampleResolver sampleNetLive.vNodes "10.0.0.1"
            [{ ip := [], port := 13546 }]
          ∈ (resolvedSpec sampleResolver (Params sampleChainGlobals).GetDefaultPort
                sampleNetLive.vAddedNodes).map
              (fun e => addedEntrySpec sampleResolver sampleNetLive.vNodes e.1 e.2) :=
  ⟨by decide, rfl,
   (getaddednodeinfo_with_dns sampleResolver sampleChainGlobals sampleNetLive).2 "10.0.0.1"
     [{ ip := [], port := 13546 }] (by decide) rfl⟩

/-! ### Pings and the peer snapshot -/

/-- The ping loop is the map that raises `fPingQueued`. -/
theorem queuePings_eq (vNodes : List CNode) :
    queuePings vNodes = vNodes.map (fun pNode => { pNode with fPingQueued := true }) := by
  induction vNodes with
  | nil => rfl
  | cons p rest ih => simp [queuePings, ih]

/-- Claim C17.  For every peer state, `ping` called with no parameter returns null
without an error and leaves the state with the same peers in the same order,
each with `fPingQueued = true` and its other fields as before, and nothing else
changed; calling it a second time right after yields the same result and
state as the first call. -/
theorem ping_spec (g : NetGlobals) :
    ping g [] false
        = (.ok .null,
           { g with vNodes := g.vNodes.map (fun pNode => { pNode with fPingQueued := true }) })
      ∧ (ping g [] false).2.vNodes.length = g.vNodes.length
      ∧ (ping g [] false).2.vNodes.all (fun pNode => pNode.fPingQueued) = true
      ∧ (ping g [] false).2.vNodes.map (fun pNode => (pNode.addr, pNode.fInbound))
          = g.vNodes.map (fun pNode => (pNode.addr, pNode.fInbound))
      ∧ ping (ping g [] false).2 [] false = ping g [] false := by
  have h : ping g [] false
      = (.ok .null,
         { g with vNodes := g.vNodes.map (fun pNode => { pNode with fPingQueued := true }) }) := by
    simp [ping, queuePings_eq]
  refine ⟨h, ?_, ?_, ?_, ?_⟩
  · simp [h]
  · simp [h]
  · simp [h, Function.comp_def]
  · rw [h]
    simp [ping, queuePings_eq, Function.comp_def]

/-- The snapshot loop appends the record of each peer. -/
theorem copyNodeStatsLoop_eq (P : PeerExternals) (vNodes : List CNode) :
    ∀ vstats, copyNodeStatsLoop P vNodes vstats = vstats ++ vNodes.map P.copyStats := by
  induction vNodes with
  | nil => intro vstats; simp [copyNodeStatsLoop]
  | cons p rest ih => intro vstats; simp [copyNodeStatsLoop, ih]

/-- The object loop appends the object of each record. -/
theorem peerInfoLoop_eq (P : PeerExternals) (vstats : List CNodeStats) :
    ∀ ret, peerInfoLoop P vstats ret = ret ++ vstats.map (peerObject P) := by
  induction vstats with
  | nil => intro ret; simp [peerInfoLoop]
  | cons st rest ih => intro ret; simp [peerInfoLoop, ih]

/-- The cast to `int64_t` reads the number as a signed 64-bit value. -/
theorem toInt64_eq_asSigned64 (x : Int) : toInt64 x = asSigned64 x := by
  unfold toInt64 asSigned64
  split <;> omega

/-- The cast to `int64_t` keeps a number of the signed 64-bit range and turns
`2^63` into `-2^63`. -/
theorem toInt64_values :
    (∀ x : Int, -2 ^ 63 ≤ x → x < 2 ^ 63 → toInt64 x = x)
      ∧ toInt64 9223372036854775808 = -9223372036854775808
      ∧ toInt64 18446744073709551615 = -1 := by
  refine ⟨?_, by decide, by decide⟩
  intro x h1 h2
  unfold toInt64
  omega

/-- The object built for one record is the object of the pairs listed for it. -/
theorem peerObject_eq (P : PeerExternals) (st : CNodeStats) :
    peerObject P st = .obj (peerPairsSpec P st) := by
  unfold peerObject peerPairsSpec
  by_cases h1 : st.addrLocal = "" <;> by_cases h2 : st.dPingWait > 0.0 <;>
    simp [h1, h2, toInt64_eq_asSigned64]

/-- Claim C18.  For every list of live peers and every prior content of the output
vector, `CopyNodeStats` leaves in it exactly one record per live peer, in the
order of `vNodes`, each being what `copyStats` gives for that peer; and
`getpeerinfo` returns the array with exactly one object per record, in the same
order, leaving the state unchanged: the object at each place is the one made of
the pairs of the record of the peer at that place (address, services, times and
byte counts as signed 64-bit numbers, ping, version, direction, height, ban
score, sync flag). -/
theorem CopyNodeStats_spec (P : PeerExternals) (g : NetGlobals) (prior : List CNodeStats) :
    CopyNodeStats P g.vNodes prior = g.vNodes.map P.copyStats
      ∧ (CopyNodeStats P g.vNodes prior).length = g.vNodes.length
      ∧ getpeerinfo P g [] false
          = (.ok (.array ((CopyNodeStats P g.vNodes prior).map (peerObject P))), g)
      ∧ ((CopyNodeStats P g.vNodes prior).map (peerObject P)).length = g.vNodes.length
      ∧ getpeerinfo P g [] false
          = (.ok (.array (g.vNodes.map
              (fun pnode => Value.obj (peerPairsSpec P (P.copyStats pnode))))), g)
      ∧ (∀ st : CNodeStats, peerObject P st = .obj (peerPairsSpec P st))
      ∧ (∀ st : CNodeStats,
          ("addr", Value.str st.addrName) ∈ peerPairsSpec P st
            ∧ ("bytessent", Value.int (asSigned64 st.nSendBytes)) ∈ peerPairsSpec P st
            ∧ ("bytesrecv", Value.int (asSigned64 st.nRecvBytes)) ∈ peerPairsSpec P st
            ∧ ("inbound", Value.bool st.fInbound) ∈ peerPairsSpec P st)
      ∧ asSigned64 9223372036854775808 = -9223372036854775808 := by
  have h : ∀ q, CopyNodeStats P g.vNodes q = g.vNodes.map P.copyStats := by
    intro q
    simp [CopyNodeStats, copyNodeStatsLoop_eq]
  have hg : getpeerinfo P g [] false
      = (.ok (.array ((g.vNodes.map P.copyStats).map (peerObject P))), g) := by
    simp [getpeerinfo, h, peerInfoLoop_eq]
  refine ⟨h prior, by simp [h], ?_, by simp [h], ?_, peerObject_eq P, ?_, by decide⟩
  · rw [h prior]
    exact hg
  · have hfun : (peerObject P ∘ P.copyStats)
        = (fun pnode => Value.obj (peerPairsSpec P (P.copyStats pnode))) := by
      funext pnode
      exact peerObject_eq P (P.copyStats pnode)
    rw [hg, List.map_map, hfun]
  · intro st
    simp [peerPairsSpec]

/-! ### The `era://` conversion -/

/-- On a string that starts with `era://`, the conversion keeps `era:` and what
follows the first six characters after the prefix. -/
theorem convertEraUri_slashes (rest : String) :
    convertEraUri ("era://" ++ rest) = "era:" ++ String.mk (rest.data.drop 6) := by
  have h1 : ("era://" ++ rest).data = 'e' :: 'r' :: 'a' :: ':' :: '/' :: '/' :: rest.data := by
    rw [String.data_append]; rfl
  have h2 : "era://".data = ['e', 'r', 'a', ':', '/', '/'] := rfl
  have h3 : QString.startsWith ("era://" ++ rest) "era://" = true := by
    simp [QString.startsWith, h1, h2, List.isPrefixOf]
  apply String.ext
  simp [convertEraUri, h3, QString.replace, h1, String.data_append]

/-- Claim C19, evaluated on the code where it fails.  For `era://EZa1b2c3d4e5f6` the
string handed to the URL reader is `era:c3d4e5f6`, not `era:EZa1b2c3d4e5f6`:
twelve characters are replaced where the prefix has six.  With the sample URL
reader the recipient address comes out as `c3d4e5f6`, while
`era:EZa1b2c3d4e5f6` gives `EZa1b2c3d4e5f6`. -/
theorem parseEraURI_slashes_cut_address :
    convertEraUri "era://EZa1b2c3d4e5f6" = "era:c3d4e5f6"
      ∧ convertEraUri "era://EZa1b2c3d4e5f6" ≠ "era:EZa1b2c3d4e5f6"
      ∧ parseEraURI sampleGui "era://EZa1b2c3d4e5f6" (some sampleRecipient)
          = (true, some { address := "c3d4e5f6", label := "", amount := 0 })
      ∧ parseEraURI sampleGui "era:EZa1b2c3d4e5f6" (some sampleRecipient)
          = (true, some { address := "EZa1b2c3d4e5f6", label := "", amount := 0 }) := by
  refine ⟨by decide, by decide, by decide, by decide⟩

/-! ### Duplicate-freeness of the added-node list -/

/-- The call `addnode(s, "onetry")` in terms of `ConnectNode`. -/
theorem addnode_onetry_eq (g : NetGlobals) (s : String) :
    addnode g [.str s, .str "onetry"] false = (.ok .null, (ConnectNode g s).2) := by
  simp [addnode, ConnectNode, Value.get_str]

/-- One `addnode` call with a command among add, remove and onetry keeps the list
duplicate-free. -/
theorem addnode_step_nodup (g : NetGlobals) (a cmd : String)
    (hcmd : cmd = "add" ∨ cmd = "remove" ∨ cmd = "onetry") (h : g.vAddedNodes.Nodup) :
    (addnode g [.str a, .str cmd] false).2.vAddedNodes.Nodup := by
  rcases hcmd with hc | hc | hc
  · subst hc
    rw [addnode_add_eq]
    by_cases ha : a ∈ g.vAddedNodes
    · rw [if_pos ha]; exact h
    · rw [if_neg ha]
      show (g.vAddedNodes ++ [a]).Nodup
      rw [List.nodup_append]
      exact ⟨h, List.nodup_singleton a, by simpa using ha⟩
  · subst hc
    rw [addnode_remove_eq]
    by_cases ha : a ∈ g.vAddedNodes
    · rw [if_pos ha]
      exact h.sublist (List.eraseIdx_sublist _ _)
    · rw [if_neg ha]; exact h
  · subst hc
    rw [addnode_onetry_eq]
    exact h

/-- A run of `addnode` calls with commands among add, remove and onetry keeps the
list duplicate-free. -/
theorem runAddnode_nodup (calls : List (String × String)) :
    ∀ g : NetGlobals, g.vAddedNodes.Nodup →
      (∀ call ∈ calls, call.2 = "add" ∨ call.2 = "remove" ∨ call.2 = "onetry") →
      (runAddnode g calls).vAddedNodes.Nodup := by
  induction calls with
  | nil => intro g h _; exact h
  | cons call rest ih =>
    intro g h hc
    simp only [runAddnode]
    apply ih
    · exact addnode_step_nodup g call.1 call.2 (hc call (List.mem_cons_self _ _)) h
    · intro c hcm
      exact hc c (List.mem_cons_of_mem _ hcm)

/-- Claim C20.  For every duplicate-free added-node list, every address and every
command among add, remove and onetry, the list after the `addnode` call is
duplicate-free, whether the call succeeds or fails; hence the list reached
from the empty list by any run of such calls is duplicate-free and holds each
address at most once. -/
theorem addnode_keeps_list_duplicate_free (g : NetGlobals) (a cmd : String)
    (hcmd : cmd = "add" ∨ cmd = "remove" ∨ cmd = "onetry") (h : g.vAddedNodes.Nodup) :
    (addnode g [.str a, .str cmd] false).2.vAddedNodes.Nodup
      ∧ ∀ (g0 : NetGlobals) (calls : List (String × String)), g0.vAddedNodes = [] →
          (∀ call ∈ calls, call.2 = "add" ∨ call.2 = "remove" ∨ call.2 = "onetry") →
          (runAddnode g0 calls).vAddedNodes.Nodup
            ∧ ∀ s, (runAddnode g0 calls).vAddedNodes.count s ≤ 1 := by
  refine ⟨addnode_step_nodup g a cmd hcmd h, ?_⟩
  intro g0 calls h0 hc
  have hn : (runAddnode g0 calls).vAddedNodes.Nodup :=
    runAddnode_nodup calls g0 (by rw [h0]; exact List.nodup_nil) hc
  exact ⟨hn, fun s => List.nodup_iff_count_le_one.1 hn s⟩

/-- Witness for C20: adding `10.0.0.2`, already present, to the sample list, and a
run of three calls from the empty list. -/
theorem addnode_keeps_list_duplicate_free_witness :
    sampleNet.vAddedNodes.Nodup
      ∧ (addnode sampleNet [.str "10.0.0.2", .str "add"] false).2.vAddedNodes.Nodup
      ∧ ∀ (g0 : NetGlobals) (calls : List (String × String)), g0.vAddedNodes = [] →
          (∀ call ∈ calls, call.2 = "add" ∨ call.2 = "remove" ∨ call.2 = "onetry") →
          (runAddnode g0 calls).vAddedNodes.Nodup
            ∧ ∀ s, (runAddnode g0 calls).vAddedNodes.count s ≤ 1 :=
  ⟨by decide,
   addnode_keeps_list_duplicate_free sampleNet "10.0.0.2" "add" (Or.inl rfl) (by decide)⟩

/-! ### Insertion order of the added-node list -/

/-- Erasing at the position the search loop stops at is erasing the first
occurrence of the address. -/
theorem eraseIdx_findAdded (L : List String) (x : String) :
    L.eraseIdx (findAdded L x) = L.erase x := by
  induction L with
  | nil => simp [findAdded]
  | cons s rest ih =>
    by_cases h : x = s
    · subst h
      simp [findAdded]
    · have h2 : ¬ s = x := fun e => h e.symm
      simp [findAdded, h, h2, List.erase_cons, ih]

/-- Claim C21.  A successful `addnode(x, "add")` on the list `L` leaves exactly `L`
followed by `x`; a successful `addnode(x, "remove")` leaves `L` with the first
occurrence of `x` erased: `L` splits as `l1`, `x`, `l2` with `x` not in `l1`,
and the list afterwards is `l1` followed by `l2`, so every other entry keeps
its place relative to the others. -/
theorem addnode_keeps_insertion_order (g : NetGlobals) (x : String) :
    ((addnode g [.str x, .str "add"] false).1 = .ok .null →
        (addnode g [.str x, .str "add"] false).2.vAddedNodes = g.vAddedNodes ++ [x])
      ∧ ((addnode g [.str x, .str "remove"] false).1 = .ok .null →
        (addnode g [.str x, .str "remove"] false).2.vAddedNodes = g.vAddedNodes.erase x
          ∧ ∃ l1 l2, x ∉ l1 ∧ g.vAddedNodes = l1 ++ x :: l2
              ∧ (addnode g [.str x, .str "remove"] false).2.vAddedNodes = l1 ++ l2) := by
  constructor
  · rw [addnode_add_eq]
    by_cases h : x ∈ g.vAddedNodes
    · rw [if_pos h]
      intro hok
      simp at hok
    · rw [if_neg h]
      intro _
      rfl
  · rw [addnode_remove_eq]
    by_cases h : x ∈ g.vAddedNodes
    · rw [if_pos h]
      intro _
      obtain ⟨l1, l2, h1, h2, h3⟩ := List.exists_erase_eq h
      refine ⟨eraseIdx_findAdded _ _, l1, l2, h1, h2, ?_⟩
      show g.vAddedNodes.eraseIdx (findAdded g.vAddedNodes x) = l1 ++ l2
      rw [eraseIdx_findAdded, h3]
    · rw [if_neg h]
      intro hok
      simp at hok

/-- Witness for C21: adding `10.0.0.9` to the sample list and removing `10.0.0.1`
from it both succeed. -/
theorem addnode_keeps_insertion_order_witness :
    ((addnode sampleNet [.str "10.0.0.9", .str "add"] false).1 = .ok .null
        ∧ (addnode sampleNet [.str "10.0.0.9", .str "add"] false).2.vAddedNodes
            = sampleNet.vAddedNodes ++ ["10.0.0.9"])
      ∧ ((addnode sampleNet [.str "10.0.0.1", .str "remove"] false).1 = .ok .null
        ∧ (addnode sampleNet [.str "10.0.0.1", .str "remove"] false).2.vAddedNodes
            = sampleNet.vAddedNodes.erase "10.0.0.1"
        ∧ ∃ l1 l2, "10.0.0.1" ∉ l1 ∧ sampleNet.vAddedNodes = l1 ++ "10.0.0.1" :: l2
            ∧ (addnode sampleNet [.str "10.0.0.1", .str "remove"] false).2.vAddedNodes
                = l1 ++ l2) :=
  have hadd : (addnode sampleNet [.str "10.0.0.9", .str "add"] false).1 = .ok .null := by
    rw [addnode_add_eq, if_neg (by decide)]
  have hrem : (addnode sampleNet [.str "10.0.0.1", .str "remove"] false).1 = .ok .null := by
    rw [addnode_remove_eq, if_pos (by decide)]
  ⟨⟨hadd, (addnode_keeps_insertion_order sampleNet "10.0.0.9").1 hadd⟩,
   ⟨hrem, (addnode_keeps_insertion_order sampleNet "10.0.0.1").2 hrem⟩⟩

/-! ### Genesis hashes against the proof-of-work limits -/

/-- Claim C24.  Whenever the constructors complete, each network's hard-coded genesis
hash, read as a 256-bit unsigned integer, is within that network's
proof-of-work limit: the mainnet hash `0000aab7...7f6a` is at most
`(2^256 - 1) >> 16`, the testnet hash `000149d0...67c5` is at most
`(2^256 - 1) >> 14`, and the testnet limit is strictly larger than the mainnet
limit. -/
theorem genesis_hash_within_pow_limit (E : Externals) (clkMain clkBase clkTest : SeedClock)
    (m : CMainParams) (t : CTestNetParams)
    (hm : CMainParams.construct E clkMain = .ok m)
    (ht : CTestNetParams.construct E clkBase clkTest = .ok t) :
    (m.hashGenesisBlock = 0x0000aab7dff29b0749519a7886b8a8d3f2806eb5dd861f9a0dbb7441f9a97f6a
        ∧ m.bnProofOfWorkLimit = (2 ^ 256 - 1) >>> 16
        ∧ m.hashGenesisBlock ≤ m.bnProofOfWorkLimit)
      ∧ (t.hashGenesisBlock = 0x000149d0c0dec3468068735e9f9ccdd6d329ed2f6f60add7459773e502f067c5
        ∧ t.bnProofOfWorkLimit = (2 ^ 256 - 1) >>> 14
        ∧ t.hashGenesisBlock ≤ t.bnProofOfWorkLimit)
      ∧ m.bnProofOfWorkLimit < t.bnProofOfWorkLimit
      ∧ m.hashGenesisBlock < 2 ^ 256 ∧ t.hashGenesisBlock < 2 ^ 256 := by
  obtain ⟨-, -, -, m4, -, -, -, -, -, -, -, m12⟩ := mainParams_construct_ok E clkMain m hm
  obtain ⟨b, -, -, -, -, -, t5, -, t7⟩ := testNetParams_construct_ok E clkBase clkTest t ht
  rw [m4, m12, t5, t7]
  simp only [uint256_max]
  refine ⟨⟨trivial, trivial, by decide⟩, ⟨trivial, trivial, by decide⟩, by decide, by decide,
    by decide⟩

/-- Witness for C24: both constructors complete in the sample environment. -/
theorem genesis_hash_within_pow_limit_witness :
    (sampleMainParams.hashGenesisBlock
          = 0x0000aab7dff29b0749519a7886b8a8d3f2806eb5dd861f9a0dbb7441f9a97f6a
        ∧ sampleMainParams.bnProofOfWorkLimit = (2 ^ 256 - 1) >>> 16
        ∧ sampleMainParams.hashGenesisBlock ≤ sampleMainParams.bnProofOfWorkLimit)
      ∧ (sampleTestNetParams.hashGenesisBlock
          = 0x000149d0c0dec3468068735e9f9ccdd6d329ed2f6f60add7459773e502f067c5
        ∧ sampleTestNetParams.bnProofOfWorkLimit = (2 ^ 256 - 1) >>> 14
        ∧ sampleTestNetParams.hashGenesisBlock ≤ sampleTestNetParams.bnProofOfWorkLimit)
      ∧ sampleMainParams.bnProofOfWorkLimit < sampleTestNetParams.bnProofOfWorkLimit
      ∧ sampleMainParams.hashGenesisBlock < 2 ^ 256
      ∧ sampleTestNetParams.hashGenesisBlock < 2 ^ 256 :=
  genesis_hash_within_pow_limit sampleExternals sampleClock sampleClock sampleClock
    sampleMainParams sampleTestNetParams sample_main_ok sample_test_ok

/-! ### The usage error of `addnode` -/

/-- Claim C22.  For string-valued parameters, `addnode` raises the usage error
`addnode <node> <add|remove|onetry>` if and only if help is requested, or the
number of parameters is not 2, or the second parameter is none of `onetry`,
`add`, `remove`; and then the state is unchanged: the added-node list is as
before and no dial has been made. -/
theorem addnode_usage_error (g : NetGlobals) (ps : List String) (fHelp : Bool) :
    ((addnode g (ps.map Value.str) fHelp).1 = .error (.runtime_error addnodeUsage)
        ↔ (fHelp = true ∨ ps.length ≠ 2
            ∨ (ps.getD 1 "" ≠ "onetry" ∧ ps.getD 1 "" ≠ "add" ∧ ps.getD 1 "" ≠ "remove")))
      ∧ ((addnode g (ps.map Value.str) fHelp).1 = .error (.runtime_error addnodeUsage) →
          (addnode g (ps.map Value.str) fHelp).2 = g) := by
  match ps with
  | [] => simp [addnode]
  | [a] => simp [addnode]
  | a :: b :: c :: rest => simp [addnode]
  | [a, b] =>
    cases fHelp
    · by_cases h1 : b = "onetry"
      · subst h1
        simp [addnode, Value.get_str, ConnectNode]
      · by_cases h2 : b = "add"
        · subst h2
          by_cases ha : findAdded g.vAddedNodes a = g.vAddedNodes.length <;>
            simp [addnode, Value.get_str, ha]
        · by_cases h3 : b = "remove"
          · subst h3
            by_cases ha : findAdded g.vAddedNodes a = g.vAddedNodes.length <;>
              simp [addnode, Value.get_str, ha]
          · simp [addnode, Value.get_str, h1, h2, h3]
    · simp [addnode, Value.get_str]

/-! ### Query items of an `era:` URL -/

end Era
